import Mathlib

/-!
Shallow embedding of the compfilter streaming filter/export engine.

Each Python module of `src/backend` is embedded as a Lean namespace; row
streams are finite lists of rows (a row is a `List String`), generators
become list transformers, and CSV files written by the multi-destination
writer are modelled as `Chunk` values (file name plus the rows written to
it, header first).  Python `int(float(s))` cell parsing is modelled on
plain decimal literals (optional sign, digits, optional fractional part,
truncation toward zero); exponent forms, underscores, `inf`/`nan` are
outside the modelled domain and are treated as unparseable.
-/

namespace PyStr

/-- Python `str.strip()`: remove whitespace from both ends. -/
def strip (s : String) : String :=
  String.mk (((s.toList.dropWhile Char.isWhitespace).reverse.dropWhile
    Char.isWhitespace).reverse)

/-- Python `str.lower()` on the ASCII range. -/
def lower (s : String) : String :=
  String.mk (s.toList.map Char.toLower)

/-- Python `str.upper()` on the ASCII range. -/
def upper (s : String) : String :=
  String.mk (s.toList.map Char.toUpper)

/-- Python `str.startswith(pre)`. -/
def startsWith (s pre : String) : Bool :=
  s.toList.take pre.toList.length == pre.toList

/-- Python slicing `s[n:]` (by characters). -/
def drop (s : String) (n : Nat) : String :=
  String.mk (s.toList.drop n)

/-- Helper of `splitWs`: accumulate the current word (reversed). -/
def splitWsAux : List Char → List Char → List String
  | [], cur => if cur.isEmpty then [] else [String.mk cur.reverse]
  | c :: cs, cur =>
    if c.isWhitespace then
      if cur.isEmpty then splitWsAux cs []
      else String.mk cur.reverse :: splitWsAux cs []
    else splitWsAux cs (c :: cur)

/-- Python `str.split()` with no argument: split on whitespace runs,
dropping empty pieces. -/
def splitWs (s : String) : List String :=
  splitWsAux s.toList []

/-- Python `" ".join(l)`. -/
def joinSpace (l : List String) : String :=
  match l with
  | [] => ""
  | x :: xs => xs.foldl (fun a s => a ++ " " ++ s) x

end PyStr

namespace WorkingnumberFilter

/-- Column alias candidates for the minimum-employees column
(`CANDS_MIN` in `workingnumber_filter.py`). -/
def CANDS_MIN : List String :=
  ["workingminimum", "working_minimum", "werk_min", "min_employees"]

/-- Column alias candidates for the maximum-employees column
(`CANDS_MAX` in `workingnumber_filter.py`). -/
def CANDS_MAX : List String :=
  ["workingmaximum", "working_maximum", "werk_max", "max_employees"]

/-- Reserved value meaning "employee count unknown" (`UNKNOWN_SENTINEL`). -/
def UNKNOWN_SENTINEL : Int := 999999999

/-- `_find_col`: case-insensitive lookup of the first candidate present in
the (trimmed, lowercased) header; returns its index. -/
def find_col (header : List String) (candidates : List String) : Option Nat :=
  let norm := header.map (fun h => PyStr.lower (PyStr.strip h))
  (candidates.map (fun c =>
    norm.findIdx? (fun h => h == PyStr.lower (PyStr.strip c)))).foldl
    (fun acc r => match acc with | some i => some i | none => r) none

/-- Digit list to natural number. -/
def digitsToNat (ds : List Char) : Nat :=
  ds.foldl (fun a c => 10 * a + (c.toNat - Char.toNat '0')) 0

/-- Parse a plain decimal literal (optional sign, digits, optional
fractional digits), truncating toward zero — models Python
`int(float(s))` on that domain. -/
def parseNumTrunc (t : String) : Option Int :=
  let (sign, cs) :=
    match t.toList with
    | '-' :: rest => ((-1 : Int), rest)
    | '+' :: rest => ((1 : Int), rest)
    | cs => ((1 : Int), cs)
  let intDs := cs.takeWhile Char.isDigit
  let rest := cs.dropWhile Char.isDigit
  match rest with
  | [] => if intDs.isEmpty then none else some (sign * (digitsToNat intDs : Int))
  | '.' :: rest2 =>
    let fracDs := rest2.takeWhile Char.isDigit
    let rest3 := rest2.dropWhile Char.isDigit
    if rest3.isEmpty && !(intDs.isEmpty && fracDs.isEmpty) then
      some (sign * (digitsToNat intDs : Int))
    else none
  | _ => none

/-- `_to_int_or_none`: `None`/blank cells parse to `none`, otherwise the
trimmed text is parsed as a (possibly fractional) decimal literal. -/
def to_int_or_none (s : Option String) : Option Int :=
  match s with
  | none => none
  | some s =>
    let t := PyStr.strip s
    if t = "" then none else parseNumTrunc t

/-- User minimum bound parsed from `selected_values[0]`. -/
def userMin (selected : List String) : Option Int :=
  match selected with
  | [] => none
  | v :: _ => to_int_or_none (some v)

/-- User maximum bound parsed from `selected_values[1]`. -/
def userMax (selected : List String) : Option Int :=
  match selected with
  | _ :: v :: _ => to_int_or_none (some v)
  | _ => none

/-- Row predicate of the main loop of `workingnumber_filter.apply`. -/
def keepRow (iMin iMax : Nat) (uMin uMax : Option Int) (row : List String) : Bool :=
  let rMin := to_int_or_none (row.get? iMin)
  let rMax := to_int_or_none (row.get? iMax)
  let isUnknown := rMin.isNone || rMax.isNone || rMax == some UNKNOWN_SENTINEL
  if isUnknown then false
  else
    let effUMin := uMin.getD (-(10 ^ 18))
    let effUMax := uMax.getD (10 ^ 18)
    match rMin, rMax with
    | some rmin, some rmax =>
      if rmin > rmax then false
      else decide (rmin ≤ effUMax ∧ effUMin ≤ rmax)
    | _, _ => false

/-- `workingnumber_filter.apply` on a finite row stream. -/
def apply (rows : List (List String)) (header : List String)
    (selected : List String) : List (List String) :=
  let uMin := userMin selected
  let uMax := userMax selected
  if uMin.isNone && uMax.isNone then rows
  else
    match find_col header CANDS_MIN, find_col header CANDS_MAX with
    | some iMin, some iMax => rows.filter (keepRow iMin iMax uMin uMax)
    | _, _ => []

/-- The parsed maximum-employees value of a row, resolved through the
header exactly as `apply` resolves it. -/
def rowMaxVal (header : List String) (row : List String) : Option Int :=
  match find_col header CANDS_MAX with
  | some i => to_int_or_none (row.get? i)
  | none => none

end WorkingnumberFilter

namespace Combinator

/-- `_KVK_CANDIDATES` from `combinator.py`. -/
def KVK_CANDIDATES : List String := ["kvk", "kvknummer", "kvknr", "kvknumber"]

/-- `_normalize_column_name`: strip a leading BOM, lowercase, keep only
ASCII `a-z0-9`. -/
def normalize_column_name (name : String) : String :=
  let cs := name.toList.dropWhile (fun c => c = '\uFEFF')
  String.mk ((cs.map Char.toLower).filter (fun c => c.isLower || c.isDigit))

/-- `_find_kvk_index`: first header column whose normalized name is a KVK
candidate or starts with "kvk". -/
def find_kvk_index (header : List String) : Option Nat :=
  header.findIdx? (fun col =>
    let n := normalize_column_name col
    KVK_CANDIDATES.contains n || PyStr.startsWith n "kvk")

/-- The identifier cell of a row at the resolved KVK index
(`row[kvk_idx].strip() if kvk_idx < len(row) else ""`). -/
def idVal (kvkIdx : Nat) (row : List String) : String :=
  PyStr.strip ((row.get? kvkIdx).getD "")

/-- The `_iter` generator inside `_apply_duplicate_filter`: skip rows whose
non-empty identifier is in the external set or was already seen; record
yielded non-empty identifiers. -/
def dupFilterAux (kvkIdx : Nat) (existing : List String) :
    List (List String) → List String → List (List String)
  | [], _ => []
  | row :: rest, seen =>
    let kvkVal := idVal kvkIdx row
    if kvkVal ≠ "" then
      if existing.contains kvkVal || seen.contains kvkVal then
        dupFilterAux kvkIdx existing rest seen
      else
        row :: dupFilterAux kvkIdx existing rest (kvkVal :: seen)
    else
      row :: dupFilterAux kvkIdx existing rest seen

/-- `_apply_duplicate_filter` with the external identifier set passed as a
parameter (its on-disk loading in `_load_existing_kvk_numbers` is file
I/O and outside the model). -/
def apply_duplicate_filter (rows : List (List String)) (header : List String)
    (existing : List String) : Except String (List (List String)) :=
  match find_kvk_index header with
  | none => .error "Could not find a KVK column in the source CSV."
  | some idx => .ok (dupFilterAux idx existing rows [])

deriving instance DecidableEq for Except

/-- A Python value as it appears in a destination dict: `None`, an int or
a string (floats are outside the modelled domain). -/
inductive PyVal where
  | pyNone : PyVal
  | pyInt : Int → PyVal
  | pyStr : String → PyVal
deriving DecidableEq, Repr

/-- Python truthiness of a `PyVal`. -/
def truthy : PyVal → Bool
  | .pyNone => false
  | .pyInt n => n != 0
  | .pyStr s => s != ""

/-- Python `a or b`. -/
def pyOr (a b : PyVal) : PyVal := if truthy a then a else b

/-- Python `str(v)`. -/
def pyStrOf : PyVal → String
  | .pyNone => "None"
  | .pyInt n => toString n
  | .pyStr s => s

/-- Python `int(s)` on a string: optional sign and decimal digits after
stripping blanks (underscore separators are outside the modelled
domain). -/
def parsePyInt (s : String) : Option Int :=
  let t := PyStr.strip s
  let (sign, cs) :=
    match t.toList with
    | '-' :: rest => ((-1 : Int), rest)
    | '+' :: rest => ((1 : Int), rest)
    | cs => ((1 : Int), cs)
  if !cs.isEmpty && cs.all Char.isDigit then
    some (sign * (WorkingnumberFilter.digitsToNat cs : Int))
  else none

/-- Python `int(v)` for the modelled values (fails on `None`). -/
def pyToInt : PyVal → Option Int
  | .pyNone => none
  | .pyInt n => some n
  | .pyStr s => parsePyInt s

/-- A raw destination dict: each key of interest read with `.get`
(absent keys are `pyNone`); both the snake_case and camelCase spellings
are modelled since `save_filtered_csv_multi` falls back through them
with Python `or`. -/
structure RawDest where
  directory : PyVal := .pyNone
  base_name : PyVal := .pyNone
  baseName : PyVal := .pyNone
  max_rows_per_file : PyVal := .pyNone
  maxRowsPerFile : PyVal := .pyNone
  rows_requested : PyVal := .pyNone
  rowsRequested : PyVal := .pyNone
deriving DecidableEq, Repr

/-- Characters kept by `_sanitize_basename` (`[A-Za-z0-9._-]`). -/
def sanitizeOkChar (c : Char) : Bool :=
  c.isAlpha || c.isDigit || c = '.' || c = '_' || c = '-'

/-- `re.sub(r"[^A-Za-z0-9._-]+", "_", s)`: each maximal run of
disallowed characters becomes one underscore. -/
def collapseRuns : List Char → Bool → List Char
  | [], _ => []
  | c :: cs, prevBad =>
    if sanitizeOkChar c then c :: collapseRuns cs false
    else if prevBad then collapseRuns cs true
    else '_' :: collapseRuns cs true

/-- `.strip("._-")`. -/
def stripStemEnds (cs : List Char) : List Char :=
  let inSet := fun (c : Char) => c = '.' || c = '_' || c = '-'
  ((cs.dropWhile inSet).reverse.dropWhile inSet).reverse

/-- `_sanitize_basename`. -/
def sanitize_basename (base_name : String) : String :=
  let stem := String.mk (stripStemEnds (collapseRuns base_name.toList false))
  if stem = "" then "results" else stem

/-- One chunk file on disk: its file name and the rows written to it (the
header row first; BOM and CSV quoting are byte-level formatting outside
the model). -/
structure Chunk where
  fname : String
  rows : List (List String)
deriving DecidableEq, Repr

/-- The mutable per-destination entry dict of `save_filtered_csv_multi`;
`writerOpen` models `writer is not None`, `files` holds the chunks
written so far (the open one last). -/
structure Entry where
  directory : String
  safe_base : String
  max_rows : Int
  requested : Option Int
  remaining : Option Int
  file_index : Nat
  writerOpen : Bool
  current_count : Nat
  files : List Chunk
  total_rows : Nat
deriving DecidableEq, Repr

/-- A freshly prepared entry. -/
def mkEntry (directory safe_base : String) (max_rows : Int)
    (requested : Option Int) : Entry :=
  { directory := directory
  , safe_base := safe_base
  , max_rows := max_rows
  , requested := requested
  , remaining := requested
  , file_index := 0
  , writerOpen := false
  , current_count := 0
  , files := []
  , total_rows := 0 }

/-- Validation and normalization of one destination dict (the loop body
over `destinations`; directory resolution and `mkdir` are filesystem
effects outside the model).  `restTaken` says whether an earlier
destination already claimed REST. -/
def prepareDest (idx : Nat) (raw : RawDest) (restTaken : Bool) :
    Except String (Entry × Bool) :=
  let directory_raw := raw.directory
  let base_name_raw := pyOr (pyOr raw.base_name raw.baseName) (.pyStr "")
  let max_rows_raw := pyOr raw.max_rows_per_file raw.maxRowsPerFile
  let rows_raw0 := pyOr raw.rows_requested raw.rowsRequested
  let rows_raw := match rows_raw0 with
    | .pyStr s => if PyStr.upper (PyStr.strip s) = "R" then PyVal.pyNone
        else PyVal.pyStr s
    | v => v
  if directory_raw = PyVal.pyNone ∨ PyStr.strip (pyStrOf directory_raw) = "" then
    .error ("Destination " ++ toString (idx + 1) ++ ": directory is required")
  else if max_rows_raw = PyVal.pyNone then
    .error ("Destination " ++ toString (idx + 1)
      ++ ": max_rows_per_file is required")
  else
    match pyToInt max_rows_raw with
    | none => .error ("Destination " ++ toString (idx + 1)
        ++ ": max_rows_per_file must be an integer")
    | some max_rows =>
      if max_rows ≤ 0 then
        .error ("Destination " ++ toString (idx + 1)
          ++ ": max_rows_per_file must be greater than zero")
      else
        let safe_base := sanitize_basename (pyStrOf base_name_raw)
        if rows_raw = PyVal.pyNone then
          if restTaken then .error "Only one destination can use R (rest)."
          else .ok (mkEntry (pyStrOf directory_raw) safe_base max_rows none, true)
        else
          match pyToInt rows_raw with
          | none => .error ("Destination " ++ toString (idx + 1)
              ++ ": rows must be a positive integer or R")
          | some rr =>
            if rr ≤ 0 then
              .error ("Destination " ++ toString (idx + 1)
                ++ ": rows must be greater than zero")
            else .ok (mkEntry (pyStrOf directory_raw) safe_base max_rows
              (some rr), false)

/-- The `prepared` list and `rest_index` built by the destination loop. -/
def prepareAux : List RawDest → Nat → List Entry → Option Nat →
    Except String (List Entry × Option Nat)
  | [], _, acc, restIdx => .ok (acc, restIdx)
  | raw :: rest, idx, acc, restIdx =>
    match prepareDest idx raw restIdx.isSome with
    | .error m => .error m
    | .ok (entry, isRest) =>
      prepareAux rest (idx + 1) (acc ++ [entry])
        (if isRest then some acc.length else restIdx)

/-- `ensure_writer`: when no writer is open or the current chunk is full,
open chunk file `{safe_base}{file_index}.csv` and write the header row. -/
def ensure_writer (header : List String) (e : Entry) : Entry :=
  if !e.writerOpen || (e.current_count : Int) ≥ e.max_rows then
    { e with
      file_index := e.file_index + 1
      , files := e.files
          ++ [⟨e.safe_base ++ toString (e.file_index + 1) ++ ".csv", [header]⟩]
      , writerOpen := true
      , current_count := 0 }
  else e

/-- Append a written row to the open (last) chunk. -/
def appendToLast : List Chunk → List String → List Chunk
  | [], _ => []
  | [c], row => [{ c with rows := c.rows ++ [row] }]
  | c :: cs, row => c :: appendToLast cs row

/-- `writer.writerow(row)` plus the counter updates of the row loop. -/
def writeRow (row : List String) (e : Entry) : Entry :=
  { e with
    files := appendToLast e.files row
    , current_count := e.current_count + 1
    , total_rows := e.total_rows + 1
    , remaining := match e.remaining with
        | some r => some (r - 1)
        | none => none }

/-- Replace the entry at position `i`. -/
def modifyIdx : List Entry → Nat → (Entry → Entry) → List Entry
  | [], _, _ => []
  | e :: es, 0, f => f e :: es
  | e :: es, n + 1, f => e :: modifyIdx es n f

/-- Routing: the first destination whose fixed quota is not exhausted
(`remaining is not None and remaining > 0`). -/
def routeIdx (entries : List Entry) : Option Nat :=
  entries.findIdx? (fun e =>
    match e.remaining with
    | some r => decide (r > 0)
    | none => false)

/-- State of the row loop. -/
structure SaveState where
  entries : List Entry
  total : Nat
deriving DecidableEq, Repr

/-- One iteration of the row loop: route, open a chunk if needed, write. -/
def stepRow (header : List String) (restIdx : Option Nat) (st : SaveState)
    (row : List String) : Except String SaveState :=
  let di := match routeIdx st.entries with
    | some i => some i
    | none => restIdx
  match di with
  | none => .error ("More rows produced than allocated. Increase the fixed "
      ++ "amounts or add an R destination.")
  | some i =>
    .ok { entries := modifyIdx st.entries i
            (fun e => writeRow row (ensure_writer header e))
        , total := st.total + 1 }

/-- The row loop over the filtered stream. -/
def runRows (header : List String) (restIdx : Option Nat) :
    List (List String) → SaveState → Except String SaveState
  | [], st => .ok st
  | row :: rest, st =>
    match stepRow header restIdx st row with
    | .error m => .error m
    | .ok st' => runRows header restIdx rest st'

/-- The zero-row epilogue: when nothing was written, `prepared[0]` gets a
header-only chunk if it has none. -/
def zeroEpilogue (header : List String) (st : SaveState) : SaveState :=
  if st.total = 0 then
    match st.entries with
    | [] => st
    | first :: others =>
      if first.files = [] then
        { st with entries := ensure_writer header first :: others }
      else st
  else st

/-- The `finally` block: close every open handle. -/
def closeAll (entries : List Entry) : List Entry :=
  entries.map (fun e =>
    if e.writerOpen then
      { e with writerOpen := false, current_count := 0 }
    else e)

/-- One row of the per-destination `details` result. -/
structure DestDetail where
  directory : String
  base_name : String
  max_rows_per_file : Int
  requested_rows : Option Int
  mode : String
  rows_written : Nat
  files : List String
deriving DecidableEq, Repr

/-- The detail record built from a finished entry. -/
def detailOf (e : Entry) : DestDetail :=
  { directory := e.directory
  , base_name := e.safe_base
  , max_rows_per_file := e.max_rows
  , requested_rows := e.requested
  , mode := if e.requested = none then "rest" else "fixed"
  , rows_written := e.total_rows
  , files := e.files.map (fun c => c.fname) }

/-- The `rows_raw` value of a destination after the snake/camel fallback
and the "R" normalization (`None` marks the REST destination). -/
def restRaw (d : RawDest) : PyVal :=
  match pyOr d.rows_requested d.rowsRequested with
  | .pyStr s => if PyStr.upper (PyStr.strip s) = "R" then PyVal.pyNone
      else PyVal.pyStr s
  | v => v

/-- Does this raw destination denote the REST destination? -/
def isRestD (d : RawDest) : Bool := restRaw d == PyVal.pyNone

/-- A just-prepared entry: no file opened, nothing written yet. -/
def freshEntry (e : Entry) : Prop :=
  e.files = [] ∧ e.writerOpen = false ∧ e.current_count = 0
    ∧ e.file_index = 0 ∧ e.total_rows = 0

/-- The value returned by `save_filtered_csv_multi`, with the final
entries kept as the model of the files on disk. -/
structure SaveResult where
  all_files : List Chunk
  total_rows_written : Nat
  details : List DestDetail
  entries : List Entry
deriving DecidableEq, Repr

/-- `save_filtered_csv_multi`, taking the already-filtered row stream as
input (`_stream_rows` and `_apply_filters` are lazy and consume no data
row before the writing loop). -/
def save_filtered_csv_multi (header : List String) (destinations : List RawDest)
    (filteredRows : List (List String)) : Except String SaveResult :=
  if destinations = [] then
    .error "At least one save destination is required"
  else
    match prepareAux destinations 0 [] none with
    | .error m => .error m
    | .ok (entries, restIdx) =>
      match runRows header restIdx filteredRows ⟨entries, 0⟩ with
      | .error m => .error m
      | .ok st =>
        let st := zeroEpilogue header st
        let closed := closeAll st.entries
        .ok { all_files := (closed.map (fun e => e.files)).flatten
            , total_rows_written := st.total
            , details := closed.map detailOf
            , entries := closed }

end Combinator

namespace TraditionalOutreachFilter

/-- `FAX_COL_CANDS`. -/
def FAX_COL_CANDS : List String := ["faxnumber_formatted", "fax", "fax_number"]

/-- `PHONE_COL_CANDS`. -/
def PHONE_COL_CANDS : List String :=
  ["phonenumber_formatted", "phone", "phone_number", "telephone", "telefoon"]

/-- `POSTAL_COL_CANDS`. -/
def POSTAL_COL_CANDS : List String :=
  ["postaladdress", "postal_address", "postadres", "post_adres", "postbus",
    "specialpostadress"]

/-- `_find_col` of `traditional_outreach_filter.py` is textually identical
to the one in `workingnumber_filter.py`. -/
def find_col := WorkingnumberFilter.find_col

/-- Container-literal shape test, modelling the `ast.literal_eval` branch
of `_has_value` shallowly: a bracketed literal counts as present iff its
inside is not blank. -/
def isContainerLiteral (s : String) : Bool :=
  (PyStr.startsWith s "[" && s.toList.getLast? == some ']')
    || (PyStr.startsWith s "(" && s.toList.getLast? == some ')')
    || (PyStr.startsWith s "\x7b" && s.toList.getLast? == some '\x7d')

/-- Inside of a bracketed literal, blank-stripped. -/
def containerNonEmpty (s : String) : Bool :=
  PyStr.strip (String.mk ((s.toList.drop 1).dropLast)) ≠ ""

/-- `_has_value`: presence check for a cell, treating blank cells, the
literal empty-container spellings and empty bracketed literals as absent,
and every other non-empty text as present. -/
def hasValue (cell : Option String) : Bool :=
  match cell with
  | none => false
  | some c =>
    let s := PyStr.strip c
    if s = "" then false
    else if s = "[]" || s = "{}" || s = "null" || s = "None" then false
    else if isContainerLiteral s then containerNonEmpty s
    else true

/-- The three tri-state fields of the filter. -/
inductive TOField where
  | fax : TOField
  | phone : TOField
  | post : TOField
deriving DecidableEq, Repr

/-- Lowercased `field=TRUE` token per field. -/
def trueTok : TOField → String
  | .fax => "fax=true"
  | .phone => "phone=true"
  | .post => "post=true"

/-- Lowercased `field=FALSE` token per field. -/
def falseTok : TOField → String
  | .fax => "fax=false"
  | .phone => "phone=false"
  | .post => "post=false"

/-- The `want` dict of `_parse_constraints`: for each field, whether
`TRUE` and whether `FALSE` was selected. -/
structure Wants where
  faxT : Bool := false
  faxF : Bool := false
  phoneT : Bool := false
  phoneF : Bool := false
  postT : Bool := false
  postF : Bool := false
deriving DecidableEq, Repr

/-- `(v or "").strip().lower()` applied to one selection token. -/
def normTok (v : String) : String := PyStr.lower (PyStr.strip v)

/-- One iteration of the token loop of `_parse_constraints`. -/
def toWantsStep (w : Wants) (v : String) : Wants :=
  let s := normTok v
  if s = "fax=true" then { w with faxT := true }
  else if s = "fax=false" then { w with faxF := true }
  else if s = "phone=true" then { w with phoneT := true }
  else if s = "phone=false" then { w with phoneF := true }
  else if s = "post=true" then { w with postT := true }
  else if s = "post=false" then { w with postF := true }
  else w

/-- Collapse the selected {TRUE, FALSE} want set of one field into the
final tri-state constraint (both selected cancel out). -/
def collapse (t f : Bool) : Option Bool :=
  if t && f then none
  else if t then some true
  else if f then some false
  else none

/-- Parsed constraints (`fax`/`phone`/`post`, `none` = unconstrained). -/
structure TOCons where
  fax : Option Bool
  phone : Option Bool
  post : Option Bool
deriving DecidableEq, Repr

/-- `_parse_constraints`. -/
def parse_constraints (selected : List String) : TOCons :=
  let w := selected.foldl toWantsStep {}
  ⟨collapse w.faxT w.faxF, collapse w.phoneT w.phoneF,
    collapse w.postT w.postF⟩

/-- `row[idx] if idx is not None and idx < len(row) else ""`. -/
def cellD (row : List String) (idx : Option Nat) : String :=
  match idx with
  | some i => (row.get? i).getD ""
  | none => ""

/-- The per-row conjunction of the three presence checks in `apply`. -/
def rowOk (cons : TOCons) (faxIdx phoneIdx postIdx : Option Nat)
    (row : List String) : Bool :=
  (match cons.fax with
    | none => true
    | some b => hasValue (some (cellD row faxIdx)) == b)
  && (match cons.phone with
    | none => true
    | some b => hasValue (some (cellD row phoneIdx)) == b)
  && (match cons.post with
    | none => true
    | some b => hasValue (some (cellD row postIdx)) == b)

/-- `traditional_outreach_filter.apply` on a finite row stream. -/
def apply (rows : List (List String)) (header : List String)
    (selected : List String) : List (List String) :=
  let cons := parse_constraints selected
  if cons.fax.isNone && cons.phone.isNone && cons.post.isNone then rows
  else
    let faxIdx := if cons.fax.isSome then find_col header FAX_COL_CANDS else none
    let phoneIdx := if cons.phone.isSome then find_col header PHONE_COL_CANDS else none
    let postIdx := if cons.post.isSome then find_col header POSTAL_COL_CANDS else none
    if (cons.fax.isSome && faxIdx.isNone)
        || (cons.phone.isSome && phoneIdx.isNone)
        || (cons.post.isSome && postIdx.isNone) then []
    else rows.filter (rowOk cons faxIdx phoneIdx postIdx)

/-- Is `v` (normalized) one of the two tokens of field `fld`? -/
def isFldTok (fld : TOField) (v : String) : Bool :=
  normTok v == trueTok fld || normTok v == falseTok fld

/-- The selection with every token of field `fld` removed. -/
def removeFld (fld : TOField) (sel : List String) : List String :=
  sel.filter (fun v => !isFldTok fld v)

/-- Projection: want-flags of the other two fields. -/
def restOf : TOField → Wants → Bool × Bool × Bool × Bool
  | .fax, w => (w.phoneT, w.phoneF, w.postT, w.postF)
  | .phone, w => (w.faxT, w.faxF, w.postT, w.postF)
  | .post, w => (w.faxT, w.faxF, w.phoneT, w.phoneF)

/-- Projection: want-flags of field `fld` itself. -/
def fldOf : TOField → Wants → Bool × Bool
  | .fax, w => (w.faxT, w.faxF)
  | .phone, w => (w.phoneT, w.phoneF)
  | .post, w => (w.postT, w.postF)

/-- The tri-state constraint of field `fld` in the parsed result. -/
def consOf : TOField → TOCons → Option Bool
  | .fax, c => c.fax
  | .phone, c => c.phone
  | .post, c => c.post

end TraditionalOutreachFilter

namespace ContactpersoonFilter

/-- Alias candidates for the contact-person column. -/
def CP_CANDS : List String :=
  ["contactpersoon", "contact_persoon", "contact_person", "contactpersonen"]

/-- `_find_col` of `contactpersoon_filter.py` is textually identical to
the one in `workingnumber_filter.py`. -/
def find_col := WorkingnumberFilter.find_col

/-- `_has_contact` is textually identical to `_has_value` of
`traditional_outreach_filter.py`. -/
def hasContact := TraditionalOutreachFilter.hasValue

/-- `{v.strip().upper() for v in selected_values}` — the Python set is
modelled by the normalized list, all later uses being membership tests
or whole-set comparisons. -/
def selNorm (selected : List String) : List String :=
  selected.map (fun v => PyStr.upper (PyStr.strip v))

/-- `sel == {"TRUE", "FALSE"}` as a set equality on the modelled list. -/
def setEqTF (sel : List String) : Bool :=
  sel.contains "TRUE" && sel.contains "FALSE"
    && sel.all (fun x => x == "TRUE" || x == "FALSE")

/-- `want_true = "TRUE" in sel and "FALSE" not in sel`. -/
def wantTrue (sel : List String) : Bool :=
  sel.contains "TRUE" && !sel.contains "FALSE"

/-- `want_false = "FALSE" in sel and "TRUE" not in sel`. -/
def wantFalse (sel : List String) : Bool :=
  sel.contains "FALSE" && !sel.contains "TRUE"

/-- `contactpersoon_filter.apply` on a finite row stream. -/
def apply (rows : List (List String)) (header : List String)
    (selected : List String) : List (List String) :=
  let sel := selNorm selected
  if sel.isEmpty || setEqTF sel then rows
  else
    match find_col header CP_CANDS with
    | none => if wantTrue sel then [] else rows
    | some idx =>
      rows.filter (fun row =>
        let present := hasContact (some ((row.get? idx).getD ""))
        (wantTrue sel && present) || (wantFalse sel && !present))

/-- The selection with every TRUE/FALSE token removed (tokens whose
stripped uppercase form is `TRUE` or `FALSE`). -/
def removeTF (sel : List String) : List String :=
  sel.filter (fun v =>
    !(PyStr.upper (PyStr.strip v) == "TRUE"
      || PyStr.upper (PyStr.strip v) == "FALSE"))

end ContactpersoonFilter

namespace VestigingFilter

/-- `GEBRUIKSDOEL_OPTIONS`: the fixed category enumeration. -/
def GEBRUIKSDOEL_OPTIONS : List String :=
  ["woonfunctie", "kantoorfunctie", "industriefunctie", "winkelfunctie",
    "bijeenkomstfunctie", "gezondheidszorgfunctie", "onderwijsfunctie",
    "overige gebruiksfunctie", "sportfunctie", "logiesfunctie", "ligplaats",
    "standplaats", "UNKNOWN", "celfunctie"]

/-- Candidates for the building-usage column. -/
def GD_CANDS : List String :=
  ["gebruiksdoelverblijfsobject", "gebruiksdoel", "gebruiksdoel_verblijfsobject"]

/-- Candidates for the main-establishment flag column. -/
def HV_CANDS : List String := ["hoofdvestiging", "is_hoofdv", "ishoofdvestiging"]

/-- Candidates for the non-mailing flag column. -/
def NM_CANDS : List String :=
  ["kvk_non_mailing_indicator", "non_mailing_indicator", "nonmailing",
    "non_mailing"]

/-- Candidates for the surface-area column. -/
def OPP_CANDS : List String :=
  ["oppervlakteverblijfsobject", "oppervlakte", "oppervlakte_verblijfsobject"]

/-- `_find_col` of `vestiging_filter.py` is textually identical to the one
in `workingnumber_filter.py`. -/
def find_col := WorkingnumberFilter.find_col

/-- `_to_int_or_none` of `vestiging_filter.py` is the same parse as in
`workingnumber_filter.py`. -/
def to_int_or_none := WorkingnumberFilter.to_int_or_none

/-- `_truthy`: tri-state normalization of TRUE/FALSE-like cell values. -/
def truthy (cell : Option String) : Option Bool :=
  match cell with
  | none => none
  | some c =>
    let s := PyStr.upper (PyStr.strip c)
    if s = "" then none
    else if s = "TRUE" || s = "1" || s = "J" || s = "JA" || s = "Y"
        || s = "YES" then some true
    else if s = "FALSE" || s = "0" || s = "N" || s = "NEE" || s = "NO" then
      some false
    else none

/-- Accumulator state of the token loop of `_parse_tokens`; the Python
`gd` set is modelled as the list of added values (all later uses are
membership or emptiness tests). -/
structure VgState where
  gd : List String := []
  hvT : Bool := false
  hvF : Bool := false
  nmT : Bool := false
  nmF : Bool := false
  oppmin : Option Int := none
  oppmax : Option Int := none
deriving DecidableEq, Repr

/-- `t.split("=", 1)[1]` for a token known to contain an equals sign. -/
def afterEq (t : String) : String :=
  String.mk ((t.toList.dropWhile (fun c => c ≠ '=')).drop 1)

/-- One iteration of the token loop of `_parse_tokens`. -/
def vgStep (st : VgState) (tok : String) : VgState :=
  let t := PyStr.strip tok
  if t = "" then st
  else
    let low := PyStr.lower t
    if PyStr.startsWith low "gd=" then { st with gd := st.gd ++ [PyStr.drop t 3] }
    else if low = "hv=true" then { st with hvT := true }
    else if low = "hv=false" then { st with hvF := true }
    else if low = "nm=true" then { st with nmT := true }
    else if low = "nm=false" then { st with nmF := true }
    else if PyStr.startsWith low "oppmin=" then
      match to_int_or_none (some (afterEq t)) with
      | some v => { st with oppmin := some v }
      | none => st
    else if PyStr.startsWith low "oppmax=" then
      match to_int_or_none (some (afterEq t)) with
      | some v => { st with oppmax := some v }
      | none => st
    else st

/-- Constraints dict produced by `_parse_tokens`. -/
structure VgCons where
  gd : List String
  hv : Option Bool
  nm : Option Bool
  oppmin : Option Int
  oppmax : Option Int
deriving DecidableEq, Repr

/-- `_parse_tokens`: fold the tokens, then collapse each flag pair
(both TRUE and FALSE selected cancel to unset). -/
def parse_tokens (selected : List String) : VgCons :=
  let st := selected.foldl vgStep {}
  ⟨st.gd, TraditionalOutreachFilter.collapse st.hvT st.hvF,
    TraditionalOutreachFilter.collapse st.nmT st.nmF, st.oppmin, st.oppmax⟩

/-- `row[idx] if idx is not None and idx < len(row) else None`. -/
def cellAt (row : List String) (idx : Option Nat) : Option String :=
  match idx with
  | some i => row.get? i
  | none => none

/-- The normalized building-usage comparison value of a row:
`" ".join(val.strip().lower().split()) if val else "unknown"`. -/
def gdNormVal (row : List String) (gdIdx : Option Nat) : String :=
  let val := match gdIdx with
    | some i => (row.get? i).getD ""
    | none => ""
  if val ≠ "" then PyStr.joinSpace (PyStr.splitWs (PyStr.lower (PyStr.strip val)))
  else "unknown"

/-- `10**18`, the open-ended upper bound used for the area range. -/
def INF : Int := 10 ^ 18

/-- The per-row `ok` conjunction of `vestiging_filter.apply`. -/
def rowOk (cons : VgCons) (gdIdx hvIdx nmIdx oppIdx : Option Nat)
    (umin umax : Int) (row : List String) : Bool :=
  (if cons.gd.isEmpty then true
   else (cons.gd.map (fun s => PyStr.lower (PyStr.strip s))).contains
      (gdNormVal row gdIdx))
  && (match cons.hv with
    | none => true
    | some b => truthy (cellAt row hvIdx) == some b)
  && (match cons.nm with
    | none => true
    | some b => truthy (cellAt row nmIdx) == some b)
  && (if cons.oppmin.isSome || cons.oppmax.isSome then
        match to_int_or_none (cellAt row oppIdx) with
        | none => false
        | some vv => decide (umin ≤ vv ∧ vv ≤ umax)
      else true)

/-- `vestiging_filter.apply` on a finite row stream. -/
def apply (rows : List (List String)) (header : List String)
    (selected : List String) : List (List String) :=
  let cons := parse_tokens selected
  if cons.gd.isEmpty && cons.hv.isNone && cons.nm.isNone
      && cons.oppmin.isNone && cons.oppmax.isNone then rows
  else
    let gdIdx := find_col header GD_CANDS
    let hvIdx := find_col header HV_CANDS
    let nmIdx := find_col header NM_CANDS
    let oppIdx := find_col header OPP_CANDS
    if !cons.gd.isEmpty && gdIdx.isNone then []
    else if cons.hv.isSome && hvIdx.isNone then []
    else if cons.nm.isSome && nmIdx.isNone then []
    else if (cons.oppmin.isSome || cons.oppmax.isSome) && oppIdx.isNone then []
    else
      let umin := cons.oppmin.getD 0
      let umax := cons.oppmax.getD INF
      rows.filter (rowOk cons gdIdx hvIdx nmIdx oppIdx umin umax)

/-- The two tri-state flags of this filter. -/
inductive VGFlag where
  | hv : VGFlag
  | nm : VGFlag
deriving DecidableEq, Repr

/-- Lowercased TRUE token of a flag. -/
def vgTrueTok : VGFlag → String
  | .hv => "hv=true"
  | .nm => "nm=true"

/-- Lowercased FALSE token of a flag. -/
def vgFalseTok : VGFlag → String
  | .hv => "hv=false"
  | .nm => "nm=false"

/-- Is `tok` (stripped, lowercased) a token of flag `fld`? -/
def isVgTok (fld : VGFlag) (tok : String) : Bool :=
  PyStr.lower (PyStr.strip tok) == vgTrueTok fld
    || PyStr.lower (PyStr.strip tok) == vgFalseTok fld

/-- The selection with every token of flag `fld` removed. -/
def removeVg (fld : VGFlag) (sel : List String) : List String :=
  sel.filter (fun tok => !isVgTok fld tok)

/-- Projection: everything of the state except the flags of `fld`. -/
def vgRestOf : VGFlag → VgState →
    List String × Bool × Bool × Option Int × Option Int
  | .hv, st => (st.gd, st.nmT, st.nmF, st.oppmin, st.oppmax)
  | .nm, st => (st.gd, st.hvT, st.hvF, st.oppmin, st.oppmax)

/-- Projection: the flag pair of `fld`. -/
def vgFldOf : VGFlag → VgState → Bool × Bool
  | .hv, st => (st.hvT, st.hvF)
  | .nm, st => (st.nmT, st.nmF)

/-- The tri-state constraint of flag `fld` in the parsed result. -/
def vgConsOf : VGFlag → VgCons → Option Bool
  | .hv, c => c.hv
  | .nm, c => c.nm

end VestigingFilter

namespace Analysis

/-- `MEDIA_FIELDS` from `analysis.py`. -/
def MEDIA_FIELDS : List String :=
  ["email", "facebook", "instagram", "linkedin", "pinterest", "twitter",
    "youtube", "internetaddress"]

/-- `GEBRUIKSDOEL_BUCKETS` from `analysis.py`. -/
def GEBRUIKSDOEL_BUCKETS : List String :=
  ["woonfunctie", "kantoorfunctie", "industriefunctie", "winkelfunctie",
    "bijeenkomstfunctie", "gezondheidszorgfunctie", "onderwijsfunctie",
    "overige gebruiksfunctie", "sportfunctie", "logiesfunctie", "ligplaats",
    "standplaats", "unknown", "celfunctie"]

/-- The counters of a `StreamingAnalyzer` at finalization time.  Python
dict/Counter objects are modelled as association lists with distinct
keys; float sums as rationals. -/
structure AnalyzerState where
  total_rows : Nat
  contact_count : Nat
  econ_true : Nat
  media_counts : List (String × Nat)
  phone_count : Nat
  fax_count : Nat
  gebruiks_counts : List (String × Nat)
  surface_sum : ℚ
  surface_n : Nat
  wmin_sum : Int
  wmin_n : Nat
  wmax_sum : Int
  wmax_n : Nat
  date_sum : Nat
  date_n : Nat
  kvk_counts : List (String × Nat)
  rechtsvorm_counts : List (String × Nat)
  province_counts : List (String × Nat)
  sbi_counts : List (String × Nat)
deriving DecidableEq, Repr

/-- Counter lookup with default 0 (`Counter.__getitem__` / `dict.get`). -/
def lookup (l : List (String × Nat)) (k : String) : Nat :=
  match l.find? (fun p => p.1 == k) with
  | some p => p.2
  | none => 0

/-- One absolute count with its percentage of total. -/
structure MetricVal where
  abs : Nat
  pct : ℚ
deriving DecidableEq, Repr

/-- Python `round(x, 6)` modelled on rationals (Python uses
round-half-to-even on floats; the tie-breaking convention is irrelevant
to the claims proved here). -/
def round6 (x : ℚ) : ℚ := (round (x * 1000000) : ℤ) / 1000000

/-- The `pct` lambda of `StreamingAnalyzer.finalize`:
`round(100.0 * count / total, 6) if total else 0.0`. -/
def pct (total count : Nat) : ℚ :=
  if total ≠ 0 then round6 (100 * (count : ℚ) / (total : ℚ)) else 0

/-- The structured result of `StreamingAnalyzer.finalize` (the average
founding date is kept as its ordinal; the ISO date rendering is calendar
formatting outside the model). -/
structure FinalResult where
  total_rows : Nat
  metrics : List (String × MetricVal)
  oppervlakte_avg_m2 : Option ℚ
  working_min_avg : Option ℚ
  working_max_avg : Option ℚ
  avg_date_ordinal : Option Int
  multi_unique : Nat
  multi : Nat
  multi_pct : ℚ
  rechtsvorm : List (String × MetricVal)
  province : List (String × MetricVal)
  sbi : List (String × MetricVal)
deriving DecidableEq, Repr

/-- `StreamingAnalyzer.finalize`. -/
def finalize (st : AnalyzerState) : FinalResult :=
  let total := st.total_rows
  let p := fun (c : Nat) => pct total c
  let unique_kvk := st.kvk_counts.length
  let multi_kvk := (st.kvk_counts.filter (fun kv => kv.2 > 1)).length
  { total_rows := total
  , metrics :=
      [("contactpersoon", ⟨st.contact_count, p st.contact_count⟩),
        ("economischactief_true", ⟨st.econ_true, p st.econ_true⟩)]
      ++ MEDIA_FIELDS.map (fun f =>
          (f, ⟨lookup st.media_counts f, p (lookup st.media_counts f)⟩))
      ++ [("phone", ⟨st.phone_count, p st.phone_count⟩),
          ("fax", ⟨st.fax_count, p st.fax_count⟩)]
      ++ GEBRUIKSDOEL_BUCKETS.map (fun b =>
          ("gebruiksdoel_" ++ String.mk (b.toList.map
              (fun c => if c = ' ' then '_' else c)),
            ⟨lookup st.gebruiks_counts b, p (lookup st.gebruiks_counts b)⟩))
  , oppervlakte_avg_m2 :=
      if st.surface_n ≠ 0 then some (round6 (st.surface_sum / st.surface_n))
      else none
  , working_min_avg :=
      if st.wmin_n ≠ 0 then some (round6 ((st.wmin_sum : ℚ) / st.wmin_n))
      else none
  , working_max_avg :=
      if st.wmax_n ≠ 0 then some (round6 ((st.wmax_sum : ℚ) / st.wmax_n))
      else none
  , avg_date_ordinal :=
      if st.date_n ≠ 0 then some (round ((st.date_sum : ℚ) / st.date_n))
      else none
  , multi_unique := unique_kvk
  , multi := multi_kvk
  , multi_pct :=
      if unique_kvk ≠ 0 then
        round6 (100 * (multi_kvk : ℚ) / (unique_kvk : ℚ))
      else 0
  , rechtsvorm := st.rechtsvorm_counts.map (fun kv => (kv.1, ⟨kv.2, p kv.2⟩))
  , province := st.province_counts.map (fun kv => (kv.1, ⟨kv.2, p kv.2⟩))
  , sbi := st.sbi_counts.map (fun kv => (kv.1, ⟨kv.2, p kv.2⟩)) }

/-- Every percentage reported in the metrics maps of a finalized result
(the guarded `pct` values). -/
def allPcts (r : FinalResult) : List ℚ :=
  r.metrics.map (fun kv => kv.2.pct)
    ++ r.rechtsvorm.map (fun kv => kv.2.pct)
    ++ r.province.map (fun kv => kv.2.pct)
    ++ r.sbi.map (fun kv => kv.2.pct)

end Analysis

/-! ## Helper lemmas -/

namespace Combinator

theorem dupFilterAux_nil (i : Nat) (ex seen : List String) :
    dupFilterAux i ex [] seen = [] := rfl

theorem dupFilterAux_cons_empty (i : Nat) (ex : List String)
    (row : List String) (rest : List (List String)) (seen : List String)
    (h : idVal i row = "") :
    dupFilterAux i ex (row :: rest) seen = row :: dupFilterAux i ex rest seen := by
  simp [dupFilterAux, h]

theorem dupFilterAux_cons_skip (i : Nat) (ex : List String)
    (row : List String) (rest : List (List String)) (seen : List String)
    (h : idVal i row ≠ "")
    (hm : (ex.contains (idVal i row) || seen.contains (idVal i row)) = true) :
    dupFilterAux i ex (row :: rest) seen = dupFilterAux i ex rest seen := by
  simp only [dupFilterAux]
  rw [if_pos h, if_pos hm]

theorem dupFilterAux_cons_keep (i : Nat) (ex : List String)
    (row : List String) (rest : List (List String)) (seen : List String)
    (h : idVal i row ≠ "")
    (hm : (ex.contains (idVal i row) || seen.contains (idVal i row)) = false) :
    dupFilterAux i ex (row :: rest) seen =
      row :: dupFilterAux i ex rest (idVal i row :: seen) := by
  simp only [dupFilterAux]
  rw [if_pos h, if_neg (by rw [hm]; exact Bool.false_ne_true)]

theorem dupFilterAux_filter_empty (i : Nat) (ex : List String) :
    ∀ (rows : List (List String)) (seen : List String),
      (dupFilterAux i ex rows seen).filter (fun r => idVal i r == "") =
        rows.filter (fun r => idVal i r == "") := by
  intro rows
  induction rows with
  | nil => intro seen; rfl
  | cons row rest ih =>
    intro seen
    by_cases h : idVal i row = ""
    · rw [dupFilterAux_cons_empty i ex row rest seen h]
      have hp : (idVal i row == "") = true := by simp [h]
      simp only [List.filter_cons, if_pos hp]
      rw [ih seen]
    · have hp : ¬((idVal i row == "") = true) := by simp [h]
      by_cases hm : (ex.contains (idVal i row) || seen.contains (idVal i row)) = true
      · rw [dupFilterAux_cons_skip i ex row rest seen h hm]
        simp only [List.filter_cons, if_neg hp]
        exact ih seen
      · rw [dupFilterAux_cons_keep i ex row rest seen h
          (Bool.eq_false_iff.mpr hm)]
        simp only [List.filter_cons, if_neg hp]
        exact ih (idVal i row :: seen)

end Combinator

/-! ## Claim theorems -/

/-- C4: with external identifier set {"111"} and a stream whose identifier
column holds ["111", "222", "222"], the duplicate filter keeps exactly the
first row carrying "222": external identifiers are dropped, and only the
first in-stream occurrence of an identifier survives. -/
theorem c4_duplicate_scenario (header : List String) (i : Nat)
    (r1 r2 r3 : List String)
    (hfind : Combinator.find_kvk_index header = some i)
    (h1 : Combinator.idVal i r1 = "111")
    (h2 : Combinator.idVal i r2 = "222")
    (h3 : Combinator.idVal i r3 = "222") :
    Combinator.apply_duplicate_filter [r1, r2, r3] header ["111"] = .ok [r2] := by
  unfold Combinator.apply_duplicate_filter
  simp only [hfind]
  rw [Combinator.dupFilterAux_cons_skip _ _ _ _ _ (by rw [h1]; decide)
      (by rw [h1]; decide),
    Combinator.dupFilterAux_cons_keep _ _ _ _ _ (by rw [h2]; decide)
      (by rw [h2]; decide),
    h2,
    Combinator.dupFilterAux_cons_skip _ _ _ _ _ (by rw [h3]; decide)
      (by rw [h3]; decide),
    Combinator.dupFilterAux_nil]

/-- C4 witness: the scenario at a concrete header and concrete rows. -/
theorem c4_witness :
    Combinator.apply_duplicate_filter [["111"], ["222", "a"], ["222", "b"]]
      ["kvk"] ["111"] = .ok [["222", "a"]] :=
  c4_duplicate_scenario ["kvk"] 0 ["111"] ["222", "a"] ["222", "b"]
    (by decide) (by decide) (by decide) (by decide)

/-- C10: whenever the header resolves to an identifier column, rows whose
identifier cell is empty (or missing, the row being too short) pass the
duplicate filter unconditionally: the sublist of empty-identifier rows is
preserved exactly, such a row is yielded without consulting the external
set or the seen set, and the seen set is not extended by it. -/
theorem c10_empty_identifier_rows_pass (header : List String) (i : Nat)
    (existing : List String)
    (hfind : Combinator.find_kvk_index header = some i) :
    (∀ (rows : List (List String)) (seen : List String),
        (Combinator.dupFilterAux i existing rows seen).filter
            (fun r => Combinator.idVal i r == "") =
          rows.filter (fun r => Combinator.idVal i r == ""))
    ∧ (∀ (row : List String) (rest : List (List String)) (seen : List String),
        Combinator.idVal i row = "" →
        Combinator.dupFilterAux i existing (row :: rest) seen =
          row :: Combinator.dupFilterAux i existing rest seen)
    ∧ (∀ rows : List (List String),
        Combinator.apply_duplicate_filter rows header existing =
          .ok (Combinator.dupFilterAux i existing rows [])) := by
  refine ⟨Combinator.dupFilterAux_filter_empty i existing, ?_, ?_⟩
  · intro row rest seen h
    exact Combinator.dupFilterAux_cons_empty i existing row rest seen h
  · intro rows
    unfold Combinator.apply_duplicate_filter
    rw [hfind]

/-- C10 witness: concrete instance with one empty-identifier row between
two suppressible rows. -/
theorem c10_witness :
    (Combinator.dupFilterAux 0 ["111"] [["111"], [""], ["222"]] []).filter
        (fun r => Combinator.idVal 0 r == "") =
      [["111"], [""], ["222"]].filter (fun r => Combinator.idVal 0 r == "") :=
  (c10_empty_identifier_rows_pass ["kvk"] 0 ["111"] (by decide)).1
    [["111"], [""], ["222"]] []

/-- C6: with any user bound set, the employee-count filter excludes every
row whose resolved maximum-employees cell parses to the reserved sentinel
999999999; with no user bound set it is a passthrough. -/
theorem c6_workingnumber_sentinel :
    (∀ (rows : List (List String)) (header sel row : List String),
        (WorkingnumberFilter.userMin sel ≠ none ∨
          WorkingnumberFilter.userMax sel ≠ none) →
        WorkingnumberFilter.rowMaxVal header row =
          some WorkingnumberFilter.UNKNOWN_SENTINEL →
        row ∉ WorkingnumberFilter.apply rows header sel)
    ∧ (∀ (rows : List (List String)) (header sel : List String),
        WorkingnumberFilter.userMin sel = none →
        WorkingnumberFilter.userMax sel = none →
        WorkingnumberFilter.apply rows header sel = rows) := by
  constructor
  · intro rows header sel row hb hmax hmem
    have hcond : ((WorkingnumberFilter.userMin sel).isNone &&
        (WorkingnumberFilter.userMax sel).isNone) = false := by
      cases hAB : ((WorkingnumberFilter.userMin sel).isNone &&
          (WorkingnumberFilter.userMax sel).isNone) with
      | false => rfl
      | true =>
        rw [Bool.and_eq_true] at hAB
        rcases hb with hb | hb
        · exact absurd (Option.isNone_iff_eq_none.mp hAB.1) hb
        · exact absurd (Option.isNone_iff_eq_none.mp hAB.2) hb
    simp only [WorkingnumberFilter.apply, hcond, Bool.false_eq_true,
      if_false] at hmem
    cases hmin : WorkingnumberFilter.find_col header WorkingnumberFilter.CANDS_MIN with
    | none => simp [hmin] at hmem
    | some iMin =>
      cases hfmax : WorkingnumberFilter.find_col header WorkingnumberFilter.CANDS_MAX with
      | none => simp [hmin, hfmax] at hmem
      | some iMax =>
        simp only [hmin, hfmax] at hmem
        have hkeep := List.of_mem_filter hmem
        simp only [WorkingnumberFilter.rowMaxVal, hfmax] at hmax
        unfold WorkingnumberFilter.keepRow at hkeep
        rw [hmax] at hkeep
        simp at hkeep
  · intro rows header sel h1 h2
    unfold WorkingnumberFilter.apply
    rw [h1, h2]
    rfl

/-- C6 witness: scenario B — row `min=5, max=999999999`, user bound
`min=10` excludes the row; empty bounds pass the stream through. -/
theorem c6_witness :
    (["5", "999999999"] ∉
        WorkingnumberFilter.apply [["5", "999999999"]]
          ["workingminimum", "workingmaximum"] ["10"])
    ∧ WorkingnumberFilter.apply [["5", "999999999"]]
        ["workingminimum", "workingmaximum"] [] = [["5", "999999999"]] :=
  ⟨c6_workingnumber_sentinel.1 _ _ _ _ (Or.inl (by decide)) (by decide),
    c6_workingnumber_sentinel.2 _ _ _ (by decide) (by decide)⟩

namespace TraditionalOutreachFilter

theorem restOf_step (fld : TOField) (v : String) (w w' : Wants)
    (h : restOf fld w = restOf fld w') :
    restOf fld (toWantsStep w v) = restOf fld (toWantsStep w' v) := by
  cases fld <;>
    simp only [restOf, Prod.mk.injEq] at h <;>
    obtain ⟨h1, h2, h3, h4⟩ := h <;>
    simp only [toWantsStep] <;>
    split_ifs <;>
    simp [restOf, h1, h2, h3, h4]

theorem restOf_step_tok (fld : TOField) (v : String) (w : Wants)
    (hv : isFldTok fld v = true) :
    restOf fld (toWantsStep w v) = restOf fld w := by
  cases fld <;>
    simp only [isFldTok, trueTok, falseTok, Bool.or_eq_true, beq_iff_eq] at hv <;>
    simp only [toWantsStep] <;>
    split_ifs <;>
    simp_all [restOf]

theorem fldOf_step_nonTok (fld : TOField) (v : String) (w : Wants)
    (hv : isFldTok fld v = false) :
    fldOf fld (toWantsStep w v) = fldOf fld w := by
  cases fld <;>
    simp only [isFldTok, trueTok, falseTok, Bool.or_eq_false_iff,
      beq_eq_false_iff_ne, ne_eq] at hv <;>
    obtain ⟨hvT, hvF⟩ := hv <;>
    simp only [toWantsStep] <;>
    split_ifs <;>
    simp_all [fldOf]

end TraditionalOutreachFilter

namespace TraditionalOutreachFilter

theorem restOf_fold (fld : TOField) :
    ∀ (sel : List String) (w w' : Wants),
      restOf fld w = restOf fld w' →
      restOf fld ((removeFld fld sel).foldl toWantsStep w) =
        restOf fld (sel.foldl toWantsStep w') := by
  intro sel
  induction sel with
  | nil => intro w w' h; simpa [removeFld] using h
  | cons v rest ih =>
    intro w w' h
    by_cases ht : isFldTok fld v = true
    · have : removeFld fld (v :: rest) = removeFld fld rest := by
        simp [removeFld, List.filter_cons, ht]
      rw [this, List.foldl_cons]
      exact ih w (toWantsStep w' v) (h.trans (restOf_step_tok fld v w' ht).symm)
    · have hf : isFldTok fld v = false := by simpa using ht
      have : removeFld fld (v :: rest) = v :: removeFld fld rest := by
        simp [removeFld, List.filter_cons, hf]
      rw [this, List.foldl_cons, List.foldl_cons]
      exact ih (toWantsStep w v) (toWantsStep w' v) (restOf_step fld v w w' h)

theorem fldOf_fold_removed (fld : TOField) :
    ∀ (sel : List String) (w : Wants),
      fldOf fld ((removeFld fld sel).foldl toWantsStep w) = fldOf fld w := by
  intro sel
  induction sel with
  | nil => intro w; simp [removeFld]
  | cons v rest ih =>
    intro w
    by_cases ht : isFldTok fld v = true
    · have : removeFld fld (v :: rest) = removeFld fld rest := by
        simp [removeFld, List.filter_cons, ht]
      rw [this]
      exact ih w
    · have hf : isFldTok fld v = false := by simpa using ht
      have : removeFld fld (v :: rest) = v :: removeFld fld rest := by
        simp [removeFld, List.filter_cons, hf]
      rw [this, List.foldl_cons]
      rw [ih (toWantsStep w v)]
      exact fldOf_step_nonTok fld v w hf

theorem fldT_step_set (fld : TOField) (v : String) (w : Wants)
    (hv : normTok v = trueTok fld) :
    (fldOf fld (toWantsStep w v)).1 = true := by
  cases fld <;>
    simp only [trueTok] at hv <;>
    simp only [toWantsStep] <;>
    split_ifs <;>
    simp_all [fldOf]

theorem fldF_step_set (fld : TOField) (v : String) (w : Wants)
    (hv : normTok v = falseTok fld) :
    (fldOf fld (toWantsStep w v)).2 = true := by
  cases fld <;>
    simp only [falseTok] at hv <;>
    simp only [toWantsStep] <;>
    split_ifs <;>
    simp_all [fldOf]

theorem fldT_step_mono (fld : TOField) (v : String) (w : Wants)
    (hw : (fldOf fld w).1 = true) :
    (fldOf fld (toWantsStep w v)).1 = true := by
  cases fld <;>
    simp only [toWantsStep] <;>
    split_ifs <;>
    simp_all [fldOf]

theorem fldF_step_mono (fld : TOField) (v : String) (w : Wants)
    (hw : (fldOf fld w).2 = true) :
    (fldOf fld (toWantsStep w v)).2 = true := by
  cases fld <;>
    simp only [toWantsStep] <;>
    split_ifs <;>
    simp_all [fldOf]

theorem fldT_fold_mono (fld : TOField) :
    ∀ (sel : List String) (w : Wants), (fldOf fld w).1 = true →
      (fldOf fld (sel.foldl toWantsStep w)).1 = true := by
  intro sel
  induction sel with
  | nil => intro w hw; simpa using hw
  | cons v rest ih =>
    intro w hw
    rw [List.foldl_cons]
    exact ih _ (fldT_step_mono fld v w hw)

theorem fldF_fold_mono (fld : TOField) :
    ∀ (sel : List String) (w : Wants), (fldOf fld w).2 = true →
      (fldOf fld (sel.foldl toWantsStep w)).2 = true := by
  intro sel
  induction sel with
  | nil => intro w hw; simpa using hw
  | cons v rest ih =>
    intro w hw
    rw [List.foldl_cons]
    exact ih _ (fldF_step_mono fld v w hw)

theorem fldT_fold_of_mem (fld : TOField) :
    ∀ (sel : List String) (w : Wants),
      (∃ v ∈ sel, normTok v = trueTok fld) →
      (fldOf fld (sel.foldl toWantsStep w)).1 = true := by
  intro sel
  induction sel with
  | nil => intro w h; simp at h
  | cons v rest ih =>
    intro w h
    rw [List.foldl_cons]
    rcases h with ⟨u, hu, hnorm⟩
    rcases List.mem_cons.mp hu with rfl | hu'
    · exact fldT_fold_mono fld rest _ (fldT_step_set fld u w hnorm)
    · exact ih _ ⟨u, hu', hnorm⟩

theorem fldF_fold_of_mem (fld : TOField) :
    ∀ (sel : List String) (w : Wants),
      (∃ v ∈ sel, normTok v = falseTok fld) →
      (fldOf fld (sel.foldl toWantsStep w)).2 = true := by
  intro sel
  induction sel with
  | nil => intro w h; simp at h
  | cons v rest ih =>
    intro w h
    rw [List.foldl_cons]
    rcases h with ⟨u, hu, hnorm⟩
    rcases List.mem_cons.mp hu with rfl | hu'
    · exact fldF_fold_mono fld rest _ (fldF_step_set fld u w hnorm)
    · exact ih _ ⟨u, hu', hnorm⟩

end TraditionalOutreachFilter

namespace TraditionalOutreachFilter

theorem parse_constraints_removeFld (fld : TOField) (sel : List String)
    (hT : ∃ v ∈ sel, normTok v = trueTok fld)
    (hF : ∃ v ∈ sel, normTok v = falseTok fld) :
    parse_constraints (removeFld fld sel) = parse_constraints sel := by
  have hrest := restOf_fold fld sel {} {} rfl
  have h0 := fldOf_fold_removed fld sel ({} : Wants)
  have hT' := fldT_fold_of_mem fld sel {} hT
  have hF' := fldF_fold_of_mem fld sel {} hF
  cases fld <;>
    simp only [restOf, fldOf, Prod.mk.injEq] at hrest h0 hT' hF' <;>
    obtain ⟨h1, h2, h3, h4⟩ := hrest <;>
    simp [parse_constraints, TOCons.mk.injEq, h1, h2, h3, h4, h0.1, h0.2,
      hT', hF', collapse]

theorem apply_removeFld (fld : TOField) (rows : List (List String))
    (header sel : List String)
    (hT : ∃ v ∈ sel, normTok v = trueTok fld)
    (hF : ∃ v ∈ sel, normTok v = falseTok fld) :
    apply rows header sel = apply rows header (removeFld fld sel) := by
  unfold apply
  rw [parse_constraints_removeFld fld sel hT hF]

end TraditionalOutreachFilter

namespace ContactpersoonFilter

theorem selNorm_removeTF (sel : List String) :
    selNorm (removeTF sel) =
      (selNorm sel).filter (fun x => !(x == "TRUE" || x == "FALSE")) := by
  induction sel with
  | nil => rfl
  | cons v rest ih =>
    simp only [removeTF, selNorm, List.map_cons, List.filter_cons] at ih ⊢
    by_cases h : (!(PyStr.upper (PyStr.strip v) == "TRUE"
        || PyStr.upper (PyStr.strip v) == "FALSE")) = true
    · simp only [h, if_true, List.map_cons]
      rw [ih]
    · have h' : (!(PyStr.upper (PyStr.strip v) == "TRUE"
          || PyStr.upper (PyStr.strip v) == "FALSE")) = false := by
        simpa using h
      simp only [h', Bool.false_eq_true, if_false]
      exact ih

theorem apply_removeTF (rows : List (List String)) (header sel : List String)
    (hT : "TRUE" ∈ selNorm sel) (hF : "FALSE" ∈ selNorm sel) :
    apply rows header sel = apply rows header (removeTF sel) := by
  have hmap := selNorm_removeTF sel
  cases hns' : (selNorm sel).filter (fun x => !(x == "TRUE" || x == "FALSE")) with
  | nil =>
    have hall : ∀ x ∈ selNorm sel, (x == "TRUE" || x == "FALSE") = true := by
      intro x hx
      by_contra hc
      exact (List.filter_eq_nil_iff.mp hns' x hx) (by simpa using hc)
    have hset : setEqTF (selNorm sel) = true := by
      simp only [setEqTF, Bool.and_eq_true]
      exact ⟨⟨List.elem_iff.mpr hT, List.elem_iff.mpr hF⟩,
        List.all_eq_true.mpr hall⟩
    unfold apply
    rw [hmap, hns']
    simp [hset]
  | cons x xs =>
    have hx : x ∈ (selNorm sel).filter (fun x => !(x == "TRUE" || x == "FALSE")) := by
      rw [hns']; exact List.mem_cons_self _ _
    obtain ⟨hxmem, hxq⟩ := List.mem_filter.mp hx
    have hxq' : ¬x = "TRUE" ∧ ¬x = "FALSE" := by simpa using hxq
    have hsetF : setEqTF (selNorm sel) = false := by
      have hallF : (selNorm sel).all (fun y => y == "TRUE" || y == "FALSE") = false := by
        cases hA : (selNorm sel).all (fun y => y == "TRUE" || y == "FALSE") with
        | false => rfl
        | true =>
          exfalso
          have h2 := List.all_eq_true.mp hA x hxmem
          rcases (by simpa using h2 : x = "TRUE" ∨ x = "FALSE") with h | h
          · exact hxq'.1 h
          · exact hxq'.2 h
      simp only [setEqTF, hallF, Bool.and_false]
    have hne : (selNorm sel).isEmpty = false := by
      cases hsel : selNorm sel with
      | nil => rw [hsel] at hxmem; simp at hxmem
      | cons a as => rfl
    have hmemT' : "TRUE" ∉ selNorm (removeTF sel) := by
      rw [hmap]
      intro hmem
      have := (List.mem_filter.mp hmem).2
      simp at this
    have hmemF' : "FALSE" ∉ selNorm (removeTF sel) := by
      rw [hmap]
      intro hmem
      have := (List.mem_filter.mp hmem).2
      simp at this
    have hne' : (selNorm (removeTF sel)).isEmpty = false := by
      rw [hmap, hns']; rfl
    have hsetF' : setEqTF (selNorm (removeTF sel)) = false := by
      have hcT' : (selNorm (removeTF sel)).contains "TRUE" = false := by
        cases hc : (selNorm (removeTF sel)).contains "TRUE" with
        | false => rfl
        | true => exact absurd (List.elem_iff.mp hc) hmemT'
      simp only [setEqTF, hcT', Bool.false_and]
    unfold apply
    simp only [hne, hsetF, hne', hsetF', Bool.or_self, Bool.false_eq_true,
      if_false]
    cases hcol : find_col header CP_CANDS with
    | none =>
      simp [wantTrue, hT, hF, hmemT']
    | some idx =>
      simp [wantTrue, wantFalse, hT, hF, hmemT', hmemF']

end ContactpersoonFilter

namespace VestigingFilter

theorem vgStep_hvTrue (st : VgState) (tok : String)
    (h : PyStr.lower (PyStr.strip tok) = "hv=true") :
    vgStep st tok = { st with hvT := true } := by
  have hne : PyStr.strip tok ≠ "" := by
    intro h0; rw [h0] at h; exact absurd h (by decide)
  simp only [vgStep]
  rw [if_neg hne, h]
  rfl

theorem vgStep_hvFalse (st : VgState) (tok : String)
    (h : PyStr.lower (PyStr.strip tok) = "hv=false") :
    vgStep st tok = { st with hvF := true } := by
  have hne : PyStr.strip tok ≠ "" := by
    intro h0; rw [h0] at h; exact absurd h (by decide)
  simp only [vgStep]
  rw [if_neg hne, h]
  rfl

theorem vgStep_nmTrue (st : VgState) (tok : String)
    (h : PyStr.lower (PyStr.strip tok) = "nm=true") :
    vgStep st tok = { st with nmT := true } := by
  have hne : PyStr.strip tok ≠ "" := by
    intro h0; rw [h0] at h; exact absurd h (by decide)
  simp only [vgStep]
  rw [if_neg hne, h]
  rfl

theorem vgStep_nmFalse (st : VgState) (tok : String)
    (h : PyStr.lower (PyStr.strip tok) = "nm=false") :
    vgStep st tok = { st with nmF := true } := by
  have hne : PyStr.strip tok ≠ "" := by
    intro h0; rw [h0] at h; exact absurd h (by decide)
  simp only [vgStep]
  rw [if_neg hne, h]
  rfl

theorem vgStep_shape (tok : String) :
    (∀ st, vgStep st tok = st)
    ∨ (∃ x, ∀ st, vgStep st tok = { st with gd := st.gd ++ [x] })
    ∨ (PyStr.lower (PyStr.strip tok) = "hv=true"
        ∧ ∀ st, vgStep st tok = { st with hvT := true })
    ∨ (PyStr.lower (PyStr.strip tok) = "hv=false"
        ∧ ∀ st, vgStep st tok = { st with hvF := true })
    ∨ (PyStr.lower (PyStr.strip tok) = "nm=true"
        ∧ ∀ st, vgStep st tok = { st with nmT := true })
    ∨ (PyStr.lower (PyStr.strip tok) = "nm=false"
        ∧ ∀ st, vgStep st tok = { st with nmF := true })
    ∨ (∃ v, ∀ st, vgStep st tok = { st with oppmin := some v })
    ∨ (∃ v, ∀ st, vgStep st tok = { st with oppmax := some v }) := by
  by_cases h0 : PyStr.strip tok = ""
  · exact Or.inl (fun st => by simp [vgStep, h0])
  by_cases h1 : PyStr.startsWith (PyStr.lower (PyStr.strip tok)) "gd=" = true
  · exact Or.inr (Or.inl ⟨PyStr.drop (PyStr.strip tok) 3, fun st => by
      simp only [vgStep]
      rw [if_neg h0, if_pos h1]⟩)
  by_cases h2 : PyStr.lower (PyStr.strip tok) = "hv=true"
  · exact Or.inr (Or.inr (Or.inl ⟨h2, fun st => vgStep_hvTrue st tok h2⟩))
  by_cases h3 : PyStr.lower (PyStr.strip tok) = "hv=false"
  · exact Or.inr (Or.inr (Or.inr (Or.inl ⟨h3, fun st => vgStep_hvFalse st tok h3⟩)))
  by_cases h4 : PyStr.lower (PyStr.strip tok) = "nm=true"
  · exact Or.inr (Or.inr (Or.inr (Or.inr (Or.inl ⟨h4, fun st => vgStep_nmTrue st tok h4⟩))))
  by_cases h5 : PyStr.lower (PyStr.strip tok) = "nm=false"
  · exact Or.inr (Or.inr (Or.inr (Or.inr (Or.inr (Or.inl
      ⟨h5, fun st => vgStep_nmFalse st tok h5⟩)))))
  by_cases h6 : PyStr.startsWith (PyStr.lower (PyStr.strip tok)) "oppmin=" = true
  · cases hv : to_int_or_none (some (afterEq (PyStr.strip tok))) with
    | none => exact Or.inl (fun st => by
        simp only [vgStep]
        rw [if_neg h0, if_neg h1, if_neg h2, if_neg h3, if_neg h4, if_neg h5,
          if_pos h6, hv])
    | some v => exact Or.inr (Or.inr (Or.inr (Or.inr (Or.inr (Or.inr (Or.inl
        ⟨v, fun st => by
          simp only [vgStep]
          rw [if_neg h0, if_neg h1, if_neg h2, if_neg h3, if_neg h4, if_neg h5,
            if_pos h6, hv]⟩))))))
  by_cases h7 : PyStr.startsWith (PyStr.lower (PyStr.strip tok)) "oppmax=" = true
  · cases hv : to_int_or_none (some (afterEq (PyStr.strip tok))) with
    | none => exact Or.inl (fun st => by
        simp only [vgStep]
        rw [if_neg h0, if_neg h1, if_neg h2, if_neg h3, if_neg h4, if_neg h5,
          if_neg h6, if_pos h7, hv])
    | some v => exact Or.inr (Or.inr (Or.inr (Or.inr (Or.inr (Or.inr (Or.inr
        ⟨v, fun st => by
          simp only [vgStep]
          rw [if_neg h0, if_neg h1, if_neg h2, if_neg h3, if_neg h4, if_neg h5,
            if_neg h6, if_pos h7, hv]⟩))))))
  · exact Or.inl (fun st => by
      simp only [vgStep]
      rw [if_neg h0, if_neg h1, if_neg h2, if_neg h3, if_neg h4, if_neg h5,
        if_neg h6, if_neg h7])

theorem vgRestOf_step (fld : VGFlag) (tok : String) (st st' : VgState)
    (h : vgRestOf fld st = vgRestOf fld st') :
    vgRestOf fld (vgStep st tok) = vgRestOf fld (vgStep st' tok) := by
  cases fld <;>
    simp only [vgRestOf, Prod.mk.injEq] at h <;>
    obtain ⟨h1, h2, h3, h4, h5⟩ := h <;>
    rcases vgStep_shape tok with hs | ⟨x, hs⟩ | ⟨_, hs⟩ | ⟨_, hs⟩ | ⟨_, hs⟩
      | ⟨_, hs⟩ | ⟨v, hs⟩ | ⟨v, hs⟩ <;>
    rw [hs st, hs st'] <;>
    simp [vgRestOf, h1, h2, h3, h4, h5]

theorem vgRestOf_step_tok (fld : VGFlag) (tok : String) (st : VgState)
    (ht : isVgTok fld tok = true) :
    vgRestOf fld (vgStep st tok) = vgRestOf fld st := by
  cases fld <;>
    simp only [isVgTok, vgTrueTok, vgFalseTok, Bool.or_eq_true_iff,
      beq_iff_eq] at ht
  case hv =>
    rcases ht with h | h
    · rw [vgStep_hvTrue st tok h]; rfl
    · rw [vgStep_hvFalse st tok h]; rfl
  case nm =>
    rcases ht with h | h
    · rw [vgStep_nmTrue st tok h]; rfl
    · rw [vgStep_nmFalse st tok h]; rfl

theorem vgFldOf_step_nonTok (fld : VGFlag) (tok : String) (st : VgState)
    (ht : isVgTok fld tok = false) :
    vgFldOf fld (vgStep st tok) = vgFldOf fld st := by
  cases fld <;>
    simp only [isVgTok, vgTrueTok, vgFalseTok, Bool.or_eq_false_iff,
      beq_eq_false_iff_ne, ne_eq] at ht <;>
    obtain ⟨ht1, ht2⟩ := ht <;>
    rcases vgStep_shape tok with hs | ⟨x, hs⟩ | ⟨hc, hs⟩ | ⟨hc, hs⟩ | ⟨hc, hs⟩
      | ⟨hc, hs⟩ | ⟨v, hs⟩ | ⟨v, hs⟩ <;>
    (try rw [hs st]) <;>
    simp_all [vgFldOf]

theorem vgT_step_set (fld : VGFlag) (tok : String) (st : VgState)
    (h : PyStr.lower (PyStr.strip tok) = vgTrueTok fld) :
    (vgFldOf fld (vgStep st tok)).1 = true := by
  cases fld
  · rw [vgStep_hvTrue st tok h]; rfl
  · rw [vgStep_nmTrue st tok h]; rfl

theorem vgF_step_set (fld : VGFlag) (tok : String) (st : VgState)
    (h : PyStr.lower (PyStr.strip tok) = vgFalseTok fld) :
    (vgFldOf fld (vgStep st tok)).2 = true := by
  cases fld
  · rw [vgStep_hvFalse st tok h]; rfl
  · rw [vgStep_nmFalse st tok h]; rfl

theorem vgT_step_mono (fld : VGFlag) (tok : String) (st : VgState)
    (hw : (vgFldOf fld st).1 = true) :
    (vgFldOf fld (vgStep st tok)).1 = true := by
  cases fld <;>
    rcases vgStep_shape tok with hs | ⟨x, hs⟩ | ⟨hc, hs⟩ | ⟨hc, hs⟩ | ⟨hc, hs⟩
      | ⟨hc, hs⟩ | ⟨v, hs⟩ | ⟨v, hs⟩ <;>
    rw [hs st] <;>
    simp_all [vgFldOf]

theorem vgF_step_mono (fld : VGFlag) (tok : String) (st : VgState)
    (hw : (vgFldOf fld st).2 = true) :
    (vgFldOf fld (vgStep st tok)).2 = true := by
  cases fld <;>
    rcases vgStep_shape tok with hs | ⟨x, hs⟩ | ⟨hc, hs⟩ | ⟨hc, hs⟩ | ⟨hc, hs⟩
      | ⟨hc, hs⟩ | ⟨v, hs⟩ | ⟨v, hs⟩ <;>
    rw [hs st] <;>
    simp_all [vgFldOf]

theorem vgRestOf_fold (fld : VGFlag) :
    ∀ (sel : List String) (st st' : VgState),
      vgRestOf fld st = vgRestOf fld st' →
      vgRestOf fld ((removeVg fld sel).foldl vgStep st) =
        vgRestOf fld (sel.foldl vgStep st') := by
  intro sel
  induction sel with
  | nil => intro st st' h; simpa [removeVg] using h
  | cons tok rest ih =>
    intro st st' h
    by_cases ht : isVgTok fld tok = true
    · have hrw : removeVg fld (tok :: rest) = removeVg fld rest := by
        simp [removeVg, List.filter_cons, ht]
      rw [hrw, List.foldl_cons]
      exact ih st (vgStep st' tok) (h.trans (vgRestOf_step_tok fld tok st' ht).symm)
    · have hf : isVgTok fld tok = false := by simpa using ht
      have hrw : removeVg fld (tok :: rest) = tok :: removeVg fld rest := by
        simp [removeVg, List.filter_cons, hf]
      rw [hrw, List.foldl_cons, List.foldl_cons]
      exact ih (vgStep st tok) (vgStep st' tok) (vgRestOf_step fld tok st st' h)

theorem vgFldOf_fold_removed (fld : VGFlag) :
    ∀ (sel : List String) (st : VgState),
      vgFldOf fld ((removeVg fld sel).foldl vgStep st) = vgFldOf fld st := by
  intro sel
  induction sel with
  | nil => intro st; simp [removeVg]
  | cons tok rest ih =>
    intro st
    by_cases ht : isVgTok fld tok = true
    · have hrw : removeVg fld (tok :: rest) = removeVg fld rest := by
        simp [removeVg, List.filter_cons, ht]
      rw [hrw]
      exact ih st
    · have hf : isVgTok fld tok = false := by simpa using ht
      have hrw : removeVg fld (tok :: rest) = tok :: removeVg fld rest := by
        simp [removeVg, List.filter_cons, hf]
      rw [hrw, List.foldl_cons, ih (vgStep st tok)]
      exact vgFldOf_step_nonTok fld tok st hf

theorem vgT_fold_mono (fld : VGFlag) :
    ∀ (sel : List String) (st : VgState), (vgFldOf fld st).1 = true →
      (vgFldOf fld (sel.foldl vgStep st)).1 = true := by
  intro sel
  induction sel with
  | nil => intro st hw; simpa using hw
  | cons tok rest ih =>
    intro st hw
    rw [List.foldl_cons]
    exact ih _ (vgT_step_mono fld tok st hw)

theorem vgF_fold_mono (fld : VGFlag) :
    ∀ (sel : List String) (st : VgState), (vgFldOf fld st).2 = true →
      (vgFldOf fld (sel.foldl vgStep st)).2 = true := by
  intro sel
  induction sel with
  | nil => intro st hw; simpa using hw
  | cons tok rest ih =>
    intro st hw
    rw [List.foldl_cons]
    exact ih _ (vgF_step_mono fld tok st hw)

theorem vgT_fold_of_mem (fld : VGFlag) :
    ∀ (sel : List String) (st : VgState),
      (∃ tok ∈ sel, PyStr.lower (PyStr.strip tok) = vgTrueTok fld) →
      (vgFldOf fld (sel.foldl vgStep st)).1 = true := by
  intro sel
  induction sel with
  | nil => intro st h; simp at h
  | cons tok rest ih =>
    intro st h
    rw [List.foldl_cons]
    rcases h with ⟨u, hu, hnorm⟩
    rcases List.mem_cons.mp hu with rfl | hu'
    · exact vgT_fold_mono fld rest _ (vgT_step_set fld u st hnorm)
    · exact ih _ ⟨u, hu', hnorm⟩

theorem vgF_fold_of_mem (fld : VGFlag) :
    ∀ (sel : List String) (st : VgState),
      (∃ tok ∈ sel, PyStr.lower (PyStr.strip tok) = vgFalseTok fld) →
      (vgFldOf fld (sel.foldl vgStep st)).2 = true := by
  intro sel
  induction sel with
  | nil => intro st h; simp at h
  | cons tok rest ih =>
    intro st h
    rw [List.foldl_cons]
    rcases h with ⟨u, hu, hnorm⟩
    rcases List.mem_cons.mp hu with rfl | hu'
    · exact vgF_fold_mono fld rest _ (vgF_step_set fld u st hnorm)
    · exact ih _ ⟨u, hu', hnorm⟩

theorem parse_tokens_removeVg (fld : VGFlag) (sel : List String)
    (hT : ∃ tok ∈ sel, PyStr.lower (PyStr.strip tok) = vgTrueTok fld)
    (hF : ∃ tok ∈ sel, PyStr.lower (PyStr.strip tok) = vgFalseTok fld) :
    parse_tokens (removeVg fld sel) = parse_tokens sel := by
  have hrest := vgRestOf_fold fld sel {} {} rfl
  have h0 := vgFldOf_fold_removed fld sel ({} : VgState)
  have hT' := vgT_fold_of_mem fld sel {} hT
  have hF' := vgF_fold_of_mem fld sel {} hF
  cases fld <;>
    simp only [vgRestOf, vgFldOf, Prod.mk.injEq] at hrest h0 hT' hF' <;>
    obtain ⟨h1, h2, h3, h4, h5⟩ := hrest <;>
    simp [parse_tokens, VgCons.mk.injEq, h1, h2, h3, h4, h5, h0.1, h0.2,
      hT', hF', TraditionalOutreachFilter.collapse]

theorem apply_removeVg (fld : VGFlag) (rows : List (List String))
    (header sel : List String)
    (hT : ∃ tok ∈ sel, PyStr.lower (PyStr.strip tok) = vgTrueTok fld)
    (hF : ∃ tok ∈ sel, PyStr.lower (PyStr.strip tok) = vgFalseTok fld) :
    apply rows header sel = apply rows header (removeVg fld sel) := by
  unfold apply
  rw [parse_tokens_removeVg fld sel hT hF]

end VestigingFilter

/-- C5: for each tri-state field (traditional_outreach fax/phone/post,
contactpersoon TRUE/FALSE, vestiging hv/nm), a selection containing both
the TRUE and the FALSE token of that field behaves exactly as the same
selection with both tokens removed: the conflicting pair imposes no
constraint. -/
theorem c5_tristate_both_cancels :
    (∀ (fld : TraditionalOutreachFilter.TOField) (rows : List (List String))
        (header sel : List String),
      (∃ v ∈ sel, TraditionalOutreachFilter.normTok v =
        TraditionalOutreachFilter.trueTok fld) →
      (∃ v ∈ sel, TraditionalOutreachFilter.normTok v =
        TraditionalOutreachFilter.falseTok fld) →
      TraditionalOutreachFilter.apply rows header sel =
        TraditionalOutreachFilter.apply rows header
          (TraditionalOutreachFilter.removeFld fld sel))
    ∧ (∀ (rows : List (List String)) (header sel : List String),
      "TRUE" ∈ ContactpersoonFilter.selNorm sel →
      "FALSE" ∈ ContactpersoonFilter.selNorm sel →
      ContactpersoonFilter.apply rows header sel =
        ContactpersoonFilter.apply rows header
          (ContactpersoonFilter.removeTF sel))
    ∧ (∀ (fld : VestigingFilter.VGFlag) (rows : List (List String))
        (header sel : List String),
      (∃ tok ∈ sel, PyStr.lower (PyStr.strip tok) =
        VestigingFilter.vgTrueTok fld) →
      (∃ tok ∈ sel, PyStr.lower (PyStr.strip tok) =
        VestigingFilter.vgFalseTok fld) →
      VestigingFilter.apply rows header sel =
        VestigingFilter.apply rows header (VestigingFilter.removeVg fld sel)) :=
  ⟨fun fld rows header sel hT hF =>
      TraditionalOutreachFilter.apply_removeFld fld rows header sel hT hF,
    fun rows header sel hT hF =>
      ContactpersoonFilter.apply_removeTF rows header sel hT hF,
    fun fld rows header sel hT hF =>
      VestigingFilter.apply_removeVg fld rows header sel hT hF⟩

/-- C5 witness: concrete both-token selections for the three filters. -/
theorem c5_witness :
    TraditionalOutreachFilter.apply [["055"], [""]] ["faxnumber_formatted"]
        ["fax=TRUE", "fax=FALSE"] =
      TraditionalOutreachFilter.apply [["055"], [""]] ["faxnumber_formatted"]
        (TraditionalOutreachFilter.removeFld .fax ["fax=TRUE", "fax=FALSE"])
    ∧ ContactpersoonFilter.apply [["jan"], [""]] ["contactpersoon"]
        ["TRUE", "FALSE", "X"] =
      ContactpersoonFilter.apply [["jan"], [""]] ["contactpersoon"]
        (ContactpersoonFilter.removeTF ["TRUE", "FALSE", "X"])
    ∧ VestigingFilter.apply [["TRUE"], ["nee"]] ["hoofdvestiging"]
        ["hv=TRUE", "hv=FALSE"] =
      VestigingFilter.apply [["TRUE"], ["nee"]] ["hoofdvestiging"]
        (VestigingFilter.removeVg .hv ["hv=TRUE", "hv=FALSE"]) :=
  ⟨c5_tristate_both_cancels.1 .fax [["055"], [""]] ["faxnumber_formatted"]
      ["fax=TRUE", "fax=FALSE"]
      ⟨"fax=TRUE", by decide, by decide⟩ ⟨"fax=FALSE", by decide, by decide⟩,
    c5_tristate_both_cancels.2.1 [["jan"], [""]] ["contactpersoon"]
      ["TRUE", "FALSE", "X"] (by decide) (by decide),
    c5_tristate_both_cancels.2.2 .hv [["TRUE"], ["nee"]] ["hoofdvestiging"]
      ["hv=TRUE", "hv=FALSE"]
      ⟨"hv=TRUE", by decide, by decide⟩ ⟨"hv=FALSE", by decide, by decide⟩⟩

/-- C9 counterexample: a row whose building-usage cell holds "garage",
which is not in the fixed enumeration, is dropped (not kept) under the
selection that includes the UNKNOWN category — the claim predicts it is
kept via normalization to the unknown bucket. -/
theorem c9_counterexample :
    VestigingFilter.apply [["garage"]] ["gebruiksdoelverblijfsobject"]
        ["gd=UNKNOWN"] = []
    ∧ "garage" ∉ VestigingFilter.GEBRUIKSDOEL_OPTIONS :=
  ⟨by decide, by decide⟩

/-- C9 amended: under the selection of only the UNKNOWN category, a row is
kept exactly when its building-usage value normalizes to "unknown" — which
happens only for an empty or missing cell; a non-empty out-of-enumeration
value stays as its whitespace-normalized lowercase self and is dropped. -/
theorem c9_unknown_bucket_amended (rows : List (List String))
    (header : List String) (i : Nat)
    (hfind : VestigingFilter.find_col header VestigingFilter.GD_CANDS = some i) :
    VestigingFilter.apply rows header ["gd=UNKNOWN"] =
      rows.filter (fun row => VestigingFilter.gdNormVal row (some i) == "unknown") := by
  unfold VestigingFilter.apply
  have hp : VestigingFilter.parse_tokens ["gd=UNKNOWN"] =
      ⟨["UNKNOWN"], none, none, none, none⟩ := by decide
  simp only [hp, hfind]
  have hlow : PyStr.lower (PyStr.strip "UNKNOWN") = "unknown" := by decide
  simp only [List.isEmpty_cons, Option.isNone_none, Option.isNone_some,
    Bool.not_false, Bool.and_false, Bool.false_and, Bool.and_true,
    Bool.true_and, Option.isSome_none, Bool.or_self, Bool.false_eq_true,
    if_false, Bool.not_true]
  apply List.filter_congr
  intro row hrow
  simp only [VestigingFilter.rowOk, hlow, List.contains]
  by_cases h : VestigingFilter.gdNormVal row (some i) = "unknown" <;>
    simp [h, hlow]

/-- C9 amended witness: empty cell is kept under UNKNOWN, a non-empty
out-of-enumeration cell is dropped. -/
theorem c9_witness :
    VestigingFilter.apply [["garage"], [""]] ["gebruiksdoelverblijfsobject"]
        ["gd=UNKNOWN"] =
      [["garage"], [""]].filter
        (fun row => VestigingFilter.gdNormVal row (some 0) == "unknown") :=
  c9_unknown_bucket_amended [["garage"], [""]] ["gebruiksdoelverblijfsobject"]
    0 (by decide)

/-- C7: when the total number of processed rows is zero, every percentage
in the finalized metrics (summary metrics and the legal-form, region and
industry-code breakdowns) is exactly 0, the guarded division never being
taken; the duplicate-identifier rate is likewise 0 when no identifier was
counted. -/
theorem c7_zero_rows_zero_pct (st : Analysis.AnalyzerState)
    (h : st.total_rows = 0) :
    (∀ q ∈ Analysis.allPcts (Analysis.finalize st), q = 0)
    ∧ (st.kvk_counts = [] → (Analysis.finalize st).multi_pct = 0) := by
  constructor
  · intro q hq
    have hp : ∀ c, Analysis.pct st.total_rows c = 0 := fun c => by
      simp [Analysis.pct, h]
    simp only [Analysis.allPcts, Analysis.finalize, hp] at hq
    simp at hq
    aesop
  · intro hk
    simp [Analysis.finalize, hk]

/-- C7 witness: a state with zero rows but nonzero counters reports only
zero percentages. -/
theorem c7_witness :
    (Analysis.finalize
        ⟨0, 3, 1, [("email", 2)], 0, 0, [], 5, 0, 0, 0, 0, 0, 0, 0, [],
          [("BV", 7)], [], []⟩).multi_pct = 0
    ∧ Analysis.allPcts (Analysis.finalize
        ⟨0, 3, 1, [("email", 2)], 0, 0, [], 5, 0, 0, 0, 0, 0, 0, 0, [],
          [("BV", 7)], [], []⟩) = List.replicate 27 0 :=
  ⟨(c7_zero_rows_zero_pct _ rfl).2 rfl, by decide⟩

namespace Combinator

theorem prepareDest_ok (idx : Nat) (raw : RawDest) (rt : Bool)
    (entry : Entry) (b : Bool)
    (hd : prepareDest idx raw rt = .ok (entry, b)) :
    freshEntry entry ∧ (b = true → rt = false) ∧ b = isRestD raw := by
  simp only [prepareDest] at hd
  split at hd
  case isTrue => exact absurd hd (by simp)
  case isFalse h1 =>
    split at hd
    case isTrue => exact absurd hd (by simp)
    case isFalse h2 =>
      split at hd
      next => exact absurd hd (by simp)
      next mr hmr =>
        split at hd
        case isTrue => exact absurd hd (by simp)
        case isFalse h3 =>
          split at hd
          case isTrue hrest =>
            split at hd
            case isTrue => exact absurd hd (by simp)
            case isFalse hrt =>
              simp only [Except.ok.injEq, Prod.mk.injEq] at hd
              obtain ⟨he, hb⟩ := hd
              subst he
              refine ⟨by simp [freshEntry, mkEntry], fun _ => by simpa using hrt, ?_⟩
              rw [← hb]
              unfold isRestD restRaw
              rw [hrest]
              rfl
          case isFalse hrest =>
            split at hd
            next => exact absurd hd (by simp)
            next rr hrr =>
              split at hd
              case isTrue => exact absurd hd (by simp)
              case isFalse h4 =>
                simp only [Except.ok.injEq, Prod.mk.injEq] at hd
                obtain ⟨he, hb⟩ := hd
                subst he
                refine ⟨by simp [freshEntry, mkEntry], by simp [← hb], ?_⟩
                rw [← hb]
                unfold isRestD restRaw
                exact (beq_eq_false_iff_ne.mpr hrest).symm

end Combinator

namespace Combinator

theorem prepareAux_spec :
    ∀ (dests : List RawDest) (idx : Nat) (acc : List Entry)
      (restIdx : Option Nat) (entries : List Entry) (ri : Option Nat),
      prepareAux dests idx acc restIdx = .ok (entries, ri) →
      (∀ e ∈ acc, freshEntry e) →
      (∀ k, restIdx = some k → k < acc.length) →
      entries.length = acc.length + dests.length
      ∧ (∀ e ∈ entries, freshEntry e)
      ∧ (∀ k, ri = some k → k < entries.length) := by
  intro dests
  induction dests with
  | nil =>
    intro idx acc restIdx entries ri hp hacc hval
    simp only [prepareAux, Except.ok.injEq, Prod.mk.injEq] at hp
    obtain ⟨he, hr⟩ := hp
    subst he; subst hr
    exact ⟨by simp, hacc, fun k hk => Nat.lt_of_lt_of_le (hval k hk) (by simp)⟩
  | cons raw rest ih =>
    intro idx acc restIdx entries ri hp hacc hval
    simp only [prepareAux] at hp
    cases hd : prepareDest idx raw restIdx.isSome with
    | error m => rw [hd] at hp; exact absurd hp (by simp)
    | ok p =>
      obtain ⟨entry, isRest⟩ := p
      rw [hd] at hp
      obtain ⟨hfresh, hrtf, hbrest⟩ := prepareDest_ok idx raw restIdx.isSome
        entry isRest hd
      have hacc' : ∀ e ∈ acc ++ [entry], freshEntry e := by
        intro e he
        rcases List.mem_append.mp he with he | he
        · exact hacc e he
        · rw [List.mem_singleton.mp he]; exact hfresh
      have hval' : ∀ k, (if isRest then some acc.length else restIdx) = some k →
          k < (acc ++ [entry]).length := by
        intro k hk
        by_cases hir : isRest = true
        · rw [if_pos hir] at hk
          have hk' : acc.length = k := Option.some.inj hk
          simp only [List.length_append, List.length_singleton]
          omega
        · rw [if_neg hir] at hk
          have := hval k hk
          simp only [List.length_append, List.length_singleton]
          omega
      obtain ⟨hlen, hfr, hvr⟩ := ih (idx + 1) (acc ++ [entry]) _ entries ri hp
        hacc' hval'
      refine ⟨?_, hfr, hvr⟩
      simp at hlen
      simp [hlen]
      omega

end Combinator

namespace Combinator

def sumTotals (es : List Entry) : Nat := (es.map (fun e => e.total_rows)).sum

theorem routeIdx_cons (e : Entry) (es : List Entry) :
    routeIdx (e :: es) =
      if (match e.remaining with
          | some r => decide (r > 0)
          | none => false) = true
      then some 0 else (routeIdx es).map (· + 1) := by
  unfold routeIdx
  rw [List.findIdx?_cons, List.findIdx?_succ]

theorem routeIdx_lt :
    ∀ (es : List Entry) (i : Nat), routeIdx es = some i → i < es.length := by
  intro es
  induction es with
  | nil => intro i h; exact Option.noConfusion h
  | cons e es ih =>
    intro i h
    rw [routeIdx_cons] at h
    split at h
    · simp only [Option.some.injEq] at h
      subst h
      simp only [List.length_cons]
      omega
    · simp only [Option.map_eq_some'] at h
      obtain ⟨j, hj, rfl⟩ := h
      have := ih j hj
      simp only [List.length_cons]
      omega

theorem writeRow_ensure_total (header row : List String) (e : Entry) :
    (writeRow row (ensure_writer header e)).total_rows = e.total_rows + 1 := by
  unfold ensure_writer writeRow
  split <;> rfl

theorem modifyIdx_length :
    ∀ (es : List Entry) (i : Nat) (f : Entry → Entry),
      (modifyIdx es i f).length = es.length := by
  intro es
  induction es with
  | nil => intro i f; rfl
  | cons e es ih =>
    intro i f
    cases i with
    | zero => rfl
    | succ n => simp [modifyIdx, ih]

theorem modifyIdx_sum :
    ∀ (es : List Entry) (i : Nat) (f : Entry → Entry), i < es.length →
      (∀ e, (f e).total_rows = e.total_rows + 1) →
      sumTotals (modifyIdx es i f) = sumTotals es + 1 := by
  intro es
  induction es with
  | nil => intro i f h hf; simp at h
  | cons e es ih =>
    intro i f h hf
    cases i with
    | zero =>
      simp [modifyIdx, sumTotals, hf e]
      omega
    | succ n =>
      have hn : n < es.length := by simpa using h
      have := ih n f hn hf
      simp only [modifyIdx, sumTotals, List.map_cons, List.sum_cons] at *
      omega

theorem stepRow_spec (header : List String) (restIdx : Option Nat)
    (st st' : SaveState) (row : List String)
    (hval : ∀ k, restIdx = some k → k < st.entries.length)
    (h : stepRow header restIdx st row = .ok st') :
    st'.total = st.total + 1
    ∧ sumTotals st'.entries = sumTotals st.entries + 1
    ∧ st'.entries.length = st.entries.length := by
  unfold stepRow at h
  rcases hroute : routeIdx st.entries with _ | i
  · simp only [hroute] at h
    cases hr : restIdx with
    | none => simp only [hr] at h; exact absurd h (by simp)
    | some k =>
      simp only [hr, Except.ok.injEq] at h
      subst h
      exact ⟨rfl,
        modifyIdx_sum st.entries k _ (hval k hr)
          (fun e => writeRow_ensure_total header row e),
        modifyIdx_length _ _ _⟩
  · simp only [hroute, Except.ok.injEq] at h
    subst h
    exact ⟨rfl,
      modifyIdx_sum st.entries i _ (routeIdx_lt st.entries i hroute)
        (fun e => writeRow_ensure_total header row e),
      modifyIdx_length _ _ _⟩

theorem runRows_spec (header : List String) (restIdx : Option Nat) :
    ∀ (rows : List (List String)) (st st' : SaveState),
      (∀ k, restIdx = some k → k < st.entries.length) →
      runRows header restIdx rows st = .ok st' →
      st'.total = st.total + rows.length
      ∧ sumTotals st'.entries = sumTotals st.entries + rows.length
      ∧ st'.entries.length = st.entries.length := by
  intro rows
  induction rows with
  | nil =>
    intro st st' hval h
    simp only [runRows, Except.ok.injEq] at h
    subst h
    exact ⟨by simp, by simp, rfl⟩
  | cons row rest ih =>
    intro st st' hval h
    simp only [runRows] at h
    cases hs : stepRow header restIdx st row with
    | error m => rw [hs] at h; exact absurd h (by simp)
    | ok st1 =>
      rw [hs] at h
      obtain ⟨h1, h2, h3⟩ := stepRow_spec header restIdx st st1 row hval hs
      obtain ⟨h4, h5, h6⟩ := ih st1 st' (fun k hk => h3 ▸ hval k hk) h
      refine ⟨?_, ?_, by omega⟩ <;> simp only [List.length_cons] <;> omega

theorem ensure_writer_total (header : List String) (e : Entry) :
    (ensure_writer header e).total_rows = e.total_rows := by
  unfold ensure_writer
  split <;> rfl

theorem zeroEpilogue_sum (header : List String) (st : SaveState) :
    sumTotals (zeroEpilogue header st).entries = sumTotals st.entries
    ∧ (zeroEpilogue header st).total = st.total := by
  obtain ⟨es, tot⟩ := st
  unfold zeroEpilogue
  dsimp only
  by_cases h0 : tot = 0
  · rw [if_pos h0]
    cases es with
    | nil => exact ⟨rfl, rfl⟩
    | cons first others =>
      dsimp only
      by_cases hf : first.files = []
      · rw [if_pos hf]
        refine ⟨?_, rfl⟩
        simp only [sumTotals, List.map_cons, List.sum_cons,
          ensure_writer_total]
      · rw [if_neg hf]
        exact ⟨rfl, rfl⟩
  · rw [if_neg h0]
    exact ⟨rfl, rfl⟩

theorem closeAll_sum (es : List Entry) :
    sumTotals (closeAll es) = sumTotals es := by
  induction es with
  | nil => rfl
  | cons e es ih =>
    simp only [closeAll, sumTotals, List.map_cons, List.sum_cons] at *
    have : (if e.writerOpen then
        { e with writerOpen := false, current_count := 0 } else e).total_rows
        = e.total_rows := by
      split <;> rfl
    rw [this, ih]

theorem detailOf_rows_written (e : Entry) :
    (detailOf e).rows_written = e.total_rows := rfl

theorem fresh_sum (es : List Entry) (h : ∀ e ∈ es, freshEntry e) :
    sumTotals es = 0 := by
  induction es with
  | nil => rfl
  | cons e es ih =>
    have he := h e (List.mem_cons_self _ _)
    have hrest := ih (fun x hx => h x (List.mem_cons_of_mem _ hx))
    simp only [sumTotals, List.map_cons, List.sum_cons] at *
    rw [he.2.2.2.2]
    omega

end Combinator

namespace Combinator

theorem routeIdx_spec :
    ∀ (es : List Entry) (i : Nat), routeIdx es = some i →
      (∃ e, es.get? i = some e ∧ ∃ rq, e.remaining = some rq ∧ 0 < rq)
      ∧ (∀ j, j < i → ∀ e2, es.get? j = some e2 →
          ∀ rq, e2.remaining = some rq → rq ≤ 0) := by
  intro es
  induction es with
  | nil => intro i h; exact Option.noConfusion h
  | cons e es ih =>
    intro i h
    rw [routeIdx_cons] at h
    split at h
    · rename_i hp
      simp only [Option.some.injEq] at h
      subst h
      constructor
      · refine ⟨e, rfl, ?_⟩
        cases hrem : e.remaining with
        | none => rw [hrem] at hp; simp at hp
        | some rq =>
          rw [hrem] at hp
          simp at hp
          exact ⟨rq, rfl, hp⟩
      · intro j hj
        exact absurd hj (Nat.not_lt_zero j)
    · rename_i hp
      simp only [Option.map_eq_some'] at h
      obtain ⟨j0, hj0, rfl⟩ := h
      obtain ⟨⟨e', he', hq⟩, hearlier⟩ := ih j0 hj0
      constructor
      · exact ⟨e', by simpa using he', hq⟩
      · intro j hj e2 he2 rq hrq
        cases j with
        | zero =>
          have he2' : e = e2 := by simpa using he2
          subst he2'
          rw [hrq] at hp
          simp at hp
          omega
        | succ j' =>
          exact hearlier j' (by omega) e2 (by simpa using he2) rq hrq

end Combinator

/-- C2: whenever `save_filtered_csv_multi` completes without error, the
per-destination `rows_written` counts sum to the number of rows of the
filtered stream, as does the returned total. -/
theorem c2_rows_written_roundtrip (header : List String)
    (dests : List Combinator.RawDest) (rows : List (List String))
    (r : Combinator.SaveResult)
    (h : Combinator.save_filtered_csv_multi header dests rows = .ok r) :
    ((r.details.map (fun d => d.rows_written)).sum = rows.length)
    ∧ r.total_rows_written = rows.length := by
  unfold Combinator.save_filtered_csv_multi at h
  by_cases hd : dests = []
  · rw [if_pos hd] at h
    exact absurd h (by simp)
  · rw [if_neg hd] at h
    cases hp : Combinator.prepareAux dests 0 [] none with
    | error m => rw [hp] at h; exact absurd h (by simp)
    | ok p =>
      obtain ⟨entries, ri⟩ := p
      simp only [hp] at h
      obtain ⟨hlen, hfresh, hval⟩ := Combinator.prepareAux_spec dests 0 [] none
        entries ri hp (by simp) (by simp)
      cases hr : Combinator.runRows header ri rows ⟨entries, 0⟩ with
      | error m => simp only [hr] at h; exact absurd h (by simp)
      | ok st =>
        simp only [hr, Except.ok.injEq] at h
        obtain ⟨h1, h2, h3⟩ := Combinator.runRows_spec header ri rows
          ⟨entries, 0⟩ st (fun k hk => hval k hk) hr
        subst h
        constructor
        · show (((Combinator.closeAll
              (Combinator.zeroEpilogue header st).entries).map
                Combinator.detailOf).map (fun d => d.rows_written)).sum
            = rows.length
          rw [List.map_map]
          have hcomp : ((fun (d : Combinator.DestDetail) => d.rows_written)
              ∘ Combinator.detailOf) = fun (e : Combinator.Entry) =>
                e.total_rows := rfl
          rw [hcomp]
          show Combinator.sumTotals (Combinator.closeAll
            (Combinator.zeroEpilogue header st).entries) = rows.length
          rw [Combinator.closeAll_sum,
            (Combinator.zeroEpilogue_sum header st).1, h2]
          have : Combinator.sumTotals entries = 0 :=
            Combinator.fresh_sum entries hfresh
          simp only [this]
          omega
        · show (Combinator.zeroEpilogue header st).total = rows.length
          rw [(Combinator.zeroEpilogue_sum header st).2, h1]
          simp

/-- C2 witness: two rows over one fixed and one REST destination. -/
theorem c2_witness :
    (Combinator.save_filtered_csv_multi ["h"]
      [{ directory := .pyStr "d1", base_name := .pyStr "a",
         max_rows_per_file := .pyInt 5, rows_requested := .pyInt 1 },
       { directory := .pyStr "d2", base_name := .pyStr "b",
         max_rows_per_file := .pyInt 5 }]
      [["1"], ["2"]]).map
        (fun r => ((r.details.map (fun d => d.rows_written)).sum,
          r.total_rows_written)) = .ok (2, 2) := by
  cases hs : Combinator.save_filtered_csv_multi ["h"]
      [{ directory := .pyStr "d1", base_name := .pyStr "a",
         max_rows_per_file := .pyInt 5, rows_requested := .pyInt 1 },
       { directory := .pyStr "d2", base_name := .pyStr "b",
         max_rows_per_file := .pyInt 5 }]
      [["1"], ["2"]] with
  | error m =>
    have hok : (Combinator.save_filtered_csv_multi ["h"]
        [{ directory := .pyStr "d1", base_name := .pyStr "a",
           max_rows_per_file := .pyInt 5, rows_requested := .pyInt 1 },
         { directory := .pyStr "d2", base_name := .pyStr "b",
           max_rows_per_file := .pyInt 5 }]
        [["1"], ["2"]]).isOk = true := by decide
    rw [hs] at hok
    exact Bool.noConfusion hok
  | ok r =>
    obtain ⟨h1, h2⟩ := c2_rows_written_roundtrip _ _ _ r hs
    simp [Except.map, h1, h2]

namespace Combinator

theorem close1_files (e : Entry) :
    (if e.writerOpen then { e with writerOpen := false, current_count := 0 }
      else e).files = e.files := by
  split <;> rfl

theorem closed_files_of_fresh :
    ∀ es : List Entry, (∀ e ∈ es, freshEntry e) →
      (closeAll es).map (fun e => e.files.map (fun c => c.rows)) =
        List.replicate es.length [] := by
  intro es
  induction es with
  | nil => intro h; rfl
  | cons e es ih =>
    intro h
    have he := h e (List.mem_cons_self _ _)
    have ih' := ih (fun x hx => h x (List.mem_cons_of_mem _ hx))
    simp only [closeAll, List.map_cons] at ih' ⊢
    rw [close1_files e, he.1, ih']
    rfl

theorem ensure_writer_fresh_files (header : List String) (e : Entry)
    (hf : freshEntry e) :
    (ensure_writer header e).files.map (fun c => c.rows) = [[header]] := by
  unfold ensure_writer
  rw [if_pos (by rw [hf.2.1]; simp)]
  dsimp only
  rw [hf.1]
  rfl

end Combinator

/-- C1 counterexample: with two destinations and an empty filtered
stream, only the first destination receives a (header-only) chunk file;
the second produces none, contradicting "each destination produces
exactly one chunk file". -/
theorem c1_counterexample :
    (Combinator.save_filtered_csv_multi ["h"]
      [{ directory := .pyStr "d1", base_name := .pyStr "a",
         max_rows_per_file := .pyInt 5, rows_requested := .pyInt 2 },
       { directory := .pyStr "d2", base_name := .pyStr "b",
         max_rows_per_file := .pyInt 5 }]
      []).map (fun r => r.entries.map (fun e => e.files.length)) =
    .ok [1, 0] := by decide

/-- C1 amended: on a zero-row stream, the first destination produces
exactly one chunk file containing only the header row, and every other
destination produces no file at all. -/
theorem c1_zero_rows_header_file (header : List String)
    (dests : List Combinator.RawDest) (entries : List Combinator.Entry)
    (ri : Option Nat) (hne : dests ≠ [])
    (hp : Combinator.prepareAux dests 0 [] none = .ok (entries, ri)) :
    ∃ r, Combinator.save_filtered_csv_multi header dests [] = .ok r
      ∧ r.entries.map (fun e => e.files.map (fun c => c.rows)) =
          [[header]] :: List.replicate (dests.length - 1) [] := by
  obtain ⟨hlen, hfresh, hval⟩ := Combinator.prepareAux_spec dests 0 [] none
    entries ri hp (by simp) (by simp)
  cases entries with
  | nil =>
    exfalso
    simp only [List.length_nil, List.length] at hlen
    exact hne (List.length_eq_zero.mp (by omega))
  | cons e0 es =>
    have hf0 : Combinator.freshEntry e0 := hfresh e0 (List.mem_cons_self _ _)
    have hz : Combinator.zeroEpilogue header ⟨e0 :: es, 0⟩ =
        ⟨Combinator.ensure_writer header e0 :: es, 0⟩ := by
      unfold Combinator.zeroEpilogue
      dsimp only
      rw [if_pos rfl, if_pos hf0.1]
    unfold Combinator.save_filtered_csv_multi
    rw [if_neg hne]
    simp only [hp, Combinator.runRows, hz]
    refine ⟨_, rfl, ?_⟩
    have htail := Combinator.closed_files_of_fresh es
      (fun x hx => hfresh x (List.mem_cons_of_mem _ hx))
    simp only [Combinator.closeAll, List.map_cons] at htail ⊢
    rw [Combinator.close1_files,
      Combinator.ensure_writer_fresh_files header e0 hf0, htail]
    have : dests.length - 1 = es.length := by
      simp only [List.length_cons, List.length_nil] at hlen
      omega
    rw [this]

/-- C1 amended witness: two destinations, zero rows. -/
theorem c1_witness :
    ∃ r, Combinator.save_filtered_csv_multi ["h"]
        [{ directory := .pyStr "d1", base_name := .pyStr "a",
           max_rows_per_file := .pyInt 5, rows_requested := .pyInt 2 },
         { directory := .pyStr "d2", base_name := .pyStr "b",
           max_rows_per_file := .pyInt 5 }] [] = .ok r
      ∧ r.entries.map (fun e => e.files.map (fun c => c.rows)) =
          [[["h"]]] :: List.replicate 1 [] :=
  c1_zero_rows_header_file ["h"]
    [{ directory := .pyStr "d1", base_name := .pyStr "a",
       max_rows_per_file := .pyInt 5, rows_requested := .pyInt 2 },
     { directory := .pyStr "d2", base_name := .pyStr "b",
       max_rows_per_file := .pyInt 5 }]
    [Combinator.mkEntry "d1" "a" 5 (some 2), Combinator.mkEntry "d2" "b" 5 none]
    (some 1) (by decide) (by decide)

/-- C3: scenario C — destinations `[{max_rows=2, rows=3}, {max_rows=10,
REST}]` and five filtered rows produce two chunk files for the first
destination (2 and 1 data rows, named first1.csv and first2.csv) and one
for the REST destination (2 data rows, named secnd1.csv); in general the
router picks the first destination in list order whose fixed quota is
positive, earlier destinations all being exhausted. -/
theorem c3_multi_destination_routing :
    ((Combinator.save_filtered_csv_multi ["h"]
      [{ directory := .pyStr "d1", base_name := .pyStr "first",
         max_rows_per_file := .pyInt 2, rows_requested := .pyInt 3 },
       { directory := .pyStr "d2", base_name := .pyStr "secnd",
         max_rows_per_file := .pyInt 10 }]
      [["1"], ["2"], ["3"], ["4"], ["5"]]).map
      (fun r => r.entries.map (fun e => e.files.map (fun c => (c.fname, c.rows)))) =
      .ok [[("first1.csv", [["h"], ["1"], ["2"]]),
            ("first2.csv", [["h"], ["3"]])],
           [("secnd1.csv", [["h"], ["4"], ["5"]])]])
    ∧ (∀ (es : List Combinator.Entry) (i : Nat),
        Combinator.routeIdx es = some i →
          (∃ e, es.get? i = some e ∧ ∃ rq, e.remaining = some rq ∧ 0 < rq)
          ∧ (∀ j, j < i → ∀ e2, es.get? j = some e2 →
              ∀ rq, e2.remaining = some rq → rq ≤ 0)) :=
  ⟨by decide, Combinator.routeIdx_spec⟩

/-- C3 witness: routing over a concrete entry list whose first quota is
exhausted picks the second destination. -/
theorem c3_witness :
    (∃ e, [Combinator.mkEntry "d" "a" 5 (some 0),
        Combinator.mkEntry "d" "b" 5 (some 2)].get? 1 = some e
      ∧ ∃ rq, e.remaining = some rq ∧ 0 < rq)
    ∧ (∀ j, j < 1 → ∀ e2, [Combinator.mkEntry "d" "a" 5 (some 0),
        Combinator.mkEntry "d" "b" 5 (some 2)].get? j = some e2 →
        ∀ rq, e2.remaining = some rq → rq ≤ 0) :=
  c3_multi_destination_routing.2
    [Combinator.mkEntry "d" "a" 5 (some 0),
      Combinator.mkEntry "d" "b" 5 (some 2)] 1 (by decide)

namespace Combinator

theorem prepareDest_badmax_err (idx : Nat) (raw : RawDest) (rt : Bool)
    (m : Int) (hmax : raw.max_rows_per_file = .pyInt m) (hm : m ≤ 0)
    (hcamel : raw.maxRowsPerFile = .pyNone) :
    ∀ p, prepareDest idx raw rt ≠ .ok p := by
  intro p hok
  simp only [prepareDest] at hok
  by_cases h1 : raw.directory = PyVal.pyNone
      ∨ PyStr.strip (pyStrOf raw.directory) = ""
  · rw [if_pos h1] at hok
    exact Except.noConfusion hok
  · rw [if_neg h1] at hok
    by_cases hm0 : m = 0
    · have hmerge : pyOr raw.max_rows_per_file raw.maxRowsPerFile =
          PyVal.pyNone := by
        rw [hmax, hcamel, hm0]
        rfl
      rw [if_pos hmerge] at hok
      exact Except.noConfusion hok
    · have hmerge : pyOr raw.max_rows_per_file raw.maxRowsPerFile =
          PyVal.pyInt m := by
        rw [hmax, hcamel]
        simp [pyOr, truthy, hm0]
      simp only [hmerge] at hok
      rw [if_neg (by simp)] at hok
      simp only [pyToInt] at hok
      rw [if_pos hm] at hok
      exact Except.noConfusion hok

theorem prepareAux_badmax :
    ∀ (dests : List RawDest) (idx : Nat) (acc : List Entry)
      (restIdx : Option Nat) (d : RawDest), d ∈ dests →
      (∃ m : Int, d.max_rows_per_file = .pyInt m ∧ m ≤ 0
        ∧ d.maxRowsPerFile = .pyNone) →
      ∀ x, prepareAux dests idx acc restIdx ≠ .ok x := by
  intro dests
  induction dests with
  | nil => intro idx acc restIdx d hd; simp at hd
  | cons raw rest ih =>
    intro idx acc restIdx d hd hbad x hok
    simp only [prepareAux] at hok
    rcases List.mem_cons.mp hd with rfl | hd'
    · obtain ⟨m, h1, h2, h3⟩ := hbad
      cases hdst : prepareDest idx d restIdx.isSome with
      | error msg => rw [hdst] at hok; exact Except.noConfusion hok
      | ok p => exact prepareDest_badmax_err idx d restIdx.isSome m h1 h2 h3 p hdst
    · cases hdst : prepareDest idx raw restIdx.isSome with
      | error m => rw [hdst] at hok; exact Except.noConfusion hok
      | ok p =>
        obtain ⟨entry, b⟩ := p
        simp only [hdst] at hok
        exact ih (idx + 1) (acc ++ [entry]) _ d hd' hbad x hok

theorem prepareAux_tworest :
    ∀ (dests : List RawDest) (idx : Nat) (acc : List Entry)
      (restIdx : Option Nat),
      2 ≤ (dests.filter (fun d => isRestD d)).length
        + (if restIdx.isSome then 1 else 0) →
      ∀ x, prepareAux dests idx acc restIdx ≠ .ok x := by
  intro dests
  induction dests with
  | nil =>
    intro idx acc restIdx h x
    rcases restIdx with _ | k <;> simp at h
  | cons raw rest ih =>
    intro idx acc restIdx h x hok
    simp only [prepareAux] at hok
    cases hdst : prepareDest idx raw restIdx.isSome with
    | error m => rw [hdst] at hok; exact Except.noConfusion hok
    | ok p =>
      obtain ⟨entry, b⟩ := p
      simp only [hdst] at hok
      obtain ⟨hfresh, hbrt, hbi⟩ := prepareDest_ok idx raw restIdx.isSome
        entry b hdst
      by_cases hb : b = true
      · have hrd : isRestD raw = true := hbi ▸ hb
        have hrt : restIdx.isSome = false := hbrt hb
        refine ih (idx + 1) (acc ++ [entry])
          (if b then some acc.length else restIdx) ?_ x hok
        rw [hb]
        simp only [List.filter_cons, hrd, if_pos] at h
        simp only [hrt, Bool.false_eq_true, if_false] at h
        simp only [List.length_cons] at h
        simp only [Option.isSome_some, if_pos]
        omega
      · have hb' : b = false := by simpa using hb
        have hrd : isRestD raw = false := hbi ▸ hb'
        refine ih (idx + 1) (acc ++ [entry])
          (if b then some acc.length else restIdx) ?_ x hok
        rw [hb']
        simp only [List.filter_cons, hrd, Bool.false_eq_true, if_false] at h
        simpa using h

end Combinator

/-- C8: a destination list holding a destination whose
`max_rows_per_file` is an integer at most 0, or holding two or more REST
destinations, makes `save_filtered_csv_multi` fail with a validation
error message that does not depend on the row stream: no data row is
consumed and no output row is written. -/
theorem c8_validation_rejected_early (dests : List Combinator.RawDest)
    (h : (∃ d ∈ dests, ∃ m : Int, d.max_rows_per_file = .pyInt m ∧ m ≤ 0
          ∧ d.maxRowsPerFile = .pyNone)
      ∨ 2 ≤ (dests.filter (fun d => Combinator.isRestD d)).length) :
    ∃ msg, ∀ (header : List String) (rows : List (List String)),
      Combinator.save_filtered_csv_multi header dests rows = .error msg := by
  have hne : dests ≠ [] := by
    rcases h with ⟨d, hd, _⟩ | h2
    · intro hc; subst hc; simp at hd
    · intro hc; subst hc; simp at h2
  have hprep : ∀ x, Combinator.prepareAux dests 0 [] none ≠ .ok x := by
    rcases h with ⟨d, hd, hbad⟩ | h2
    · exact fun x => Combinator.prepareAux_badmax dests 0 [] none d hd hbad x
    · exact fun x => Combinator.prepareAux_tworest dests 0 [] none
        (by simpa using h2) x
  cases hp : Combinator.prepareAux dests 0 [] none with
  | ok x => exact absurd hp (hprep x)
  | error m =>
    refine ⟨m, fun header rows => ?_⟩
    unfold Combinator.save_filtered_csv_multi
    rw [if_neg hne]
    simp only [hp]

/-- C8 witness: a negative chunk size is rejected for every stream. -/
theorem c8_witness :
    (Combinator.save_filtered_csv_multi ["h"]
      [{ directory := .pyStr "d1", base_name := .pyStr "a",
         max_rows_per_file := .pyInt (-3), rows_requested := .pyInt 2 }]
      [["1"], ["2"]]).isOk = false := by
  obtain ⟨msg, hmsg⟩ := c8_validation_rejected_early
    [{ directory := .pyStr "d1", base_name := .pyStr "a",
       max_rows_per_file := .pyInt (-3), rows_requested := .pyInt 2 }]
    (Or.inl ⟨_, List.mem_cons_self _ _, -3, rfl, by decide, rfl⟩)
  rw [hmsg ["h"] [["1"], ["2"]]]
  rfl
